import Mathlib

/-!
# Dual-stack test daemon (`internal/socket-testing/daemon.c`)

A shallow embedding of `main` of `daemon.c`.  The program talks to the operating
system only through system calls and the C library, so the embedding is a
function from the *answers of the environment* (the value every call returns,
the bytes a `read` delivers, whether a `write` returns) to the *trace* of calls
the program makes, with their arguments, and the state the process ends in.

* Descriptors and return values are `Int`; bytes are `Nat` (`0` is NUL).
* The constants of the system headers (`AF_INET6`, `SOL_SOCKET`, ...) are kept
  symbolic, as constructors of small enumerations.
* The endless `while (1)` loop is unfolded along the finite list of connection
  attempts the environment has delivered so far: `serve` is total and the trace
  of a longer list extends the trace of a shorter one.
* `printf("%s", buffer)` reads memory up to the first NUL byte.  When the buffer
  holds no NUL the C program reads past its end; the bytes found there are
  supplied by the environment (`ConnEnv.beyond`) and the run continues.
* `write` on a connection the peer has reset raises `SIGPIPE`.  The program
  installs no handler and ignores no signal, so the default action ends the
  process inside `write`: the call does not return, nothing follows it.
-/

namespace Daemon

/-! ## Constants of the program and of the system headers -/

/-- `#define PORT 8080`. -/
def PORT : Nat := 8080

/-- `#define BUFFER_SIZE 1024`. -/
def BUFFER_SIZE : Nat := 1024

/-- `EXIT_FAILURE` of `stdlib.h`. -/
def EXIT_FAILURE : Int := 1

/-- Address families (`sin6_family`, first argument of `socket`); `AF_UNSPEC` is
the all-zero value. -/
inductive Domain
  | AF_UNSPEC
  | AF_INET
  | AF_INET6
  deriving DecidableEq, Repr

/-- Socket types (second argument of `socket`). -/
inductive SockType
  | SOCK_STREAM
  | SOCK_DGRAM
  deriving DecidableEq, Repr

/-- Option levels of `setsockopt` / `getsockopt`. -/
inductive Level
  | SOL_SOCKET
  | IPPROTO_IPV6
  deriving DecidableEq, Repr

/-- Option names of `setsockopt` / `getsockopt`. -/
inductive OptName
  | SO_REUSEADDR
  | IPV6_V6ONLY
  deriving DecidableEq, Repr

/-- The bytes of an ASCII string literal (without the terminating NUL). -/
def bytes (s : String) : List Nat := s.toList.map Char.toNat

/-- `htons`: the two bytes of a 16-bit value as they lie in memory in network
byte order (most significant byte first). -/
def htons (x : Nat) : List Nat := [x / 256 % 256, x % 256]

/-- `struct sockaddr_in6`.  `sin6_port` and `sin6_addr` are held as the bytes in
memory (network byte order). -/
structure sockaddr_in6 where
  sin6_family : Domain
  sin6_port : List Nat
  sin6_flowinfo : Nat
  sin6_addr : List Nat
  sin6_scope_id : Nat
  deriving DecidableEq, Repr

/-- The structure after `memset(&address, 0, sizeof(address))`. -/
def sockaddr_in6.zeroed : sockaddr_in6 :=
  { sin6_family := Domain.AF_UNSPEC
    sin6_port := [0, 0]
    sin6_flowinfo := 0
    sin6_addr := List.replicate 16 0
    sin6_scope_id := 0 }

/-- `in6addr_loopback`, the address `::1`. -/
def in6addr_loopback : List Nat := List.replicate 15 0 ++ [1]

/-- `sizeof(struct sockaddr_in6)`. -/
def sizeof_sockaddr_in6 : Nat := 28

/-- `sizeof(int)`. -/
def sizeof_int : Nat := 4

/-- The object `http_response` points to: the characters of the literal of line
17 followed by the terminating NUL. -/
def http_response : List Nat :=
  bytes "HTTP/1.1 200 OK\nContent-Type: text/plain\nContent-Length: 14\n\nHello, world!\n" ++ [0]

/-- `strlen`: the number of bytes before the first NUL. -/
def strlen (s : List Nat) : Nat := (s.takeWhile (fun b => b != 0)).length

/-- What `%s` prints for a pointer to `mem`: the bytes before the first NUL. -/
def cstring (mem : List Nat) : List Nat := mem.takeWhile (fun b => b != 0)

/-- `%d` for an `int`. -/
def fmt_d (v : Int) : List Nat :=
  match v with
  | Int.ofNat n => (Nat.toDigits 10 n).map Char.toNat
  | Int.negSucc n => 45 :: (Nat.toDigits 10 (n + 1)).map Char.toNat

/-! ## Events -/

/-- How a `write` ends: it returns a value (a byte count or `-1`), or the process receives
`SIGPIPE` inside the call (the peer has reset the connection) and the call does not return. -/
inductive WriteResult
  | returned (ret : Int)
  | sigpipe
  deriving DecidableEq, Repr

/-- One observable action of the program: a system call with its arguments and
the value it returned (for `write`: how it ended), or a line sent to the standard streams. -/
inductive Event
  | socket (domain : Domain) (ty : SockType) (protocol : Int) (ret : Int)
  | setsockopt (fd : Int) (level : Level) (optname : OptName) (optval : Int) (optlen : Nat)
      (ret : Int)
  | getsockopt (fd : Int) (level : Level) (optname : OptName) (ret : Int)
  | bind (fd : Int) (addr : sockaddr_in6) (addrlen : Nat) (ret : Int)
  | listen (fd : Int) (backlog : Int) (ret : Int)
  | accept (fd : Int) (addrlen : Nat) (ret : Int)
  | read (fd : Int) (count : Nat) (ret : Int)
  | write (fd : Int) (buf : List Nat) (count : Nat) (result : WriteResult)
  | close (fd : Int) (ret : Int)
  | perror (msg : String)
  | printf (out : List Nat)
  deriving DecidableEq, Repr

/-! ## The environment -/

/-- The answers of the system to the calls of the setup phase. -/
structure SetupEnv where
  socket_ret : Int
  reuseaddr_ret : Int
  v6only_ret : Int
  getsockopt_ret : Int
  returned_v6only : Int
  bind_ret : Int
  listen_ret : Int
  close_ret : Int
  deriving DecidableEq, Repr

/-- What a `read` delivers: an error (`-1`, nothing stored) or some bytes. -/
inductive ReadResult
  | error
  | data (bs : List Nat)
  deriving DecidableEq, Repr

/-- The answers of the system during one turn of the serve loop. -/
structure ConnEnv where
  accept_ret : Int
  accept_addrlen : Nat
  read_result : ReadResult
  beyond : List Nat
  write_result : WriteResult
  close_ret : Int
  deriving DecidableEq, Repr

/-- The bytes a `read` of `count` bytes really stores: never more than `count`. -/
def ReadResult.stored (r : ReadResult) (count : Nat) : List Nat :=
  match r with
  | ReadResult.error => []
  | ReadResult.data bs => bs.take count

/-- The value `read` returns. -/
def ReadResult.ret (r : ReadResult) (count : Nat) : Int :=
  match r with
  | ReadResult.error => -1
  | ReadResult.data bs => ((bs.take count).length : Int)

/-- The buffer after `read(fd, buffer, count)`: the bytes delivered overwrite the
front of the buffer, the rest keeps its old contents. -/
def sys_read (buffer : List Nat) (count : Nat) (r : ReadResult) : List Nat :=
  r.stored count ++ buffer.drop (r.stored count).length

/-! ## The program -/

/-- The variables of `main` that live across turns of the serve loop. -/
structure LoopState where
  buffer : List Nat
  addrlen : Nat
  deriving DecidableEq, Repr

/-- The loop variables when the loop is entered: `char buffer[BUFFER_SIZE] = {0}`
and `int addrlen = sizeof(address)`. -/
def LoopState.init : LoopState :=
  { buffer := List.replicate BUFFER_SIZE 0, addrlen := sizeof_sockaddr_in6 }

/-- The text of the request dump, `printf("Request received:\n---\n%s\n---\n", buffer)`. -/
def request_dump (buffer beyond : List Nat) : List Nat :=
  bytes "Request received:\n---\n" ++ cstring (buffer ++ beyond) ++ bytes "\n---\n"

/-- Signal number of `SIGPIPE`. -/
def SIGPIPE : Nat := 13

/-- How far a process has come: still in the serve loop, exited with a status, or ended by a
signal. -/
inductive Status
  | running
  | exited (code : Int)
  | killed (signal : Nat)
  deriving DecidableEq, Repr

/-- The result of a run: the events so far and the state of the process. -/
structure Run where
  trace : List Event
  status : Status
  deriving DecidableEq, Repr

/-- One turn of the `while (1)` body (lines 78-92): the events, and the loop variables for the
next turn - `none` when the process was ended by `SIGPIPE` inside `write`. -/
def iteration (server_fd : Int) (st : LoopState) (c : ConnEnv) :
    List Event × Option LoopState :=
  let new_socket := c.accept_ret
  let st1 : LoopState := { st with addrlen := c.accept_addrlen }
  if new_socket < 0 then
    ([Event.accept server_fd st.addrlen new_socket, Event.perror "accept failed"], some st1)
  else
    let buffer1 := sys_read st1.buffer BUFFER_SIZE c.read_result
    let t :=
      [Event.accept server_fd st.addrlen new_socket,
       Event.read new_socket BUFFER_SIZE (c.read_result.ret BUFFER_SIZE),
       Event.printf (request_dump buffer1 c.beyond),
       Event.write new_socket (http_response.take (strlen http_response))
         (strlen http_response) c.write_result]
    match c.write_result with
    | WriteResult.sigpipe => (t, none)
    | WriteResult.returned _ =>
      (t ++ [Event.close new_socket c.close_ret], some { st1 with buffer := buffer1 })

/-- The loop variables after the turns for `conns`; `none` when the process did not live
through them. -/
def loopStateAfter (server_fd : Int) : LoopState → List ConnEnv → Option LoopState
  | st, [] => some st
  | st, c :: cs =>
    match (iteration server_fd st c).2 with
    | none => none
    | some st1 => loopStateAfter server_fd st1 cs

/-- The `while (1)` loop of lines 77-93 along the connection attempts `conns`: it goes on
through all of them unless a `write` ends the process. -/
def serve (server_fd : Int) : LoopState → List ConnEnv → Run
  | _, [] => { trace := [], status := Status.running }
  | st, c :: cs =>
    match (iteration server_fd st c).2 with
    | none => { trace := (iteration server_fd st c).1, status := Status.killed SIGPIPE }
    | some st1 =>
      { trace := (iteration server_fd st c).1 ++ (serve server_fd st1 cs).trace,
        status := (serve server_fd st1 cs).status }

/-- The line the option readback prints (lines 45-49). -/
def readback_line (e : SetupEnv) : Event :=
  if e.getsockopt_ret = 0 then
    Event.printf (bytes "IPV6_V6ONLY is currently set to: " ++ fmt_d e.returned_v6only ++ bytes "\n")
  else
    Event.perror "getsockopt IPV6_V6ONLY failed"

/-- The address `bind` is given (lines 53-56). -/
def bind_address : sockaddr_in6 :=
  { sockaddr_in6.zeroed with
    sin6_family := Domain.AF_INET6
    sin6_addr := in6addr_loopback
    sin6_port := htons PORT }

/-- The four `printf` calls of lines 72-75. -/
def banner : List Event :=
  [Event.printf (bytes "Server listening on [::1] port " ++ fmt_d PORT ++ bytes "\n"),
   Event.printf (bytes "Test with curl: \n"),
   Event.printf (bytes "  curl -6 http://[::1]:" ++ fmt_d PORT ++ bytes "\n"),
   Event.printf (bytes "  curl -4 http://127.0.0.1:" ++ fmt_d PORT ++ bytes "\n\n")]

/-- The function `main` of `daemon.c`, run against the setup answers `e` and the connection
attempts `conns`. -/
def main (e : SetupEnv) (conns : List ConnEnv) : Run :=
  let server_fd := e.socket_ret
  let t1 := [Event.socket Domain.AF_INET6 SockType.SOCK_STREAM 0 server_fd]
  if server_fd = 0 then
    { trace := t1 ++ [Event.perror "socket failed"], status := Status.exited EXIT_FAILURE }
  else
    let opt : Int := 1
    let t2 := t1 ++ [Event.setsockopt server_fd Level.SOL_SOCKET OptName.SO_REUSEADDR opt
      sizeof_int e.reuseaddr_ret]
    if e.reuseaddr_ret ≠ 0 then
      { trace := t2 ++ [Event.perror "setsockopt SO_REUSEADDR failed",
          Event.close server_fd e.close_ret],
        status := Status.exited EXIT_FAILURE }
    else
      let v6only : Int := 0
      let t3 := t2 ++ [Event.setsockopt server_fd Level.IPPROTO_IPV6 OptName.IPV6_V6ONLY v6only
        sizeof_int e.v6only_ret]
      if e.v6only_ret ≠ 0 then
        { trace := t3 ++ [Event.perror "setsockopt IPV6_V6ONLY failed",
            Event.close server_fd e.close_ret],
          status := Status.exited EXIT_FAILURE }
      else
        let t4 := t3 ++ [Event.getsockopt server_fd Level.IPPROTO_IPV6 OptName.IPV6_V6ONLY
          e.getsockopt_ret, readback_line e]
        let addrlen := LoopState.init.addrlen
        let t5 := t4 ++ [Event.bind server_fd bind_address addrlen e.bind_ret]
        if e.bind_ret < 0 then
          { trace := t5 ++ [Event.perror "bind failed", Event.close server_fd e.close_ret],
            status := Status.exited EXIT_FAILURE }
        else
          let t6 := t5 ++ [Event.listen server_fd 3 e.listen_ret]
          if e.listen_ret < 0 then
            { trace := t6 ++ [Event.perror "listen failed", Event.close server_fd e.close_ret],
              status := Status.exited EXIT_FAILURE }
          else
            { trace := t6 ++ banner ++ (serve server_fd LoopState.init conns).trace,
              status := (serve server_fd LoopState.init conns).status }

/-! ## Observations on traces -/

/-- System calls, as opposed to output on the standard streams. -/
def Event.isSyscall : Event → Bool
  | Event.perror _ => false
  | Event.printf _ => false
  | _ => true

/-- The system calls of a trace, in order. -/
def syscalls (t : List Event) : List Event := t.filter Event.isSyscall

/-- The `write` calls of a trace: descriptor, bytes handed over and length. -/
def writes (t : List Event) : List (Int × List Nat × Nat) :=
  t.filterMap fun ev =>
    match ev with
    | Event.write fd buf count _ => some (fd, buf, count)
    | _ => none

/-- The connection attempts whose `accept` succeeded (line 79 tests `< 0`). -/
def accepted (conns : List ConnEnv) : List ConnEnv :=
  conns.filter fun c => decide (0 ≤ c.accept_ret)

/-- The 75 bytes of the response as the specification gives them. -/
def response_literal : List Nat :=
  [72, 84, 84, 80, 47, 49, 46, 49, 32, 50, 48, 48, 32, 79, 75, 10,
   67, 111, 110, 116, 101, 110, 116, 45, 84, 121, 112, 101, 58, 32,
   116, 101, 120, 116, 47, 112, 108, 97, 105, 110, 10,
   67, 111, 110, 116, 101, 110, 116, 45, 76, 101, 110, 103, 116, 104, 58, 32, 49, 52, 10,
   10,
   72, 101, 108, 108, 111, 44, 32, 119, 111, 114, 108, 100, 33, 10]

/-- The `close` calls of a trace: the descriptors closed, in order. -/
def closes (t : List Event) : List Int :=
  t.filterMap fun ev =>
    match ev with
    | Event.close fd _ => some fd
    | _ => none

/-- The steps of the listener setup. -/
inductive SetupStep
  | socket
  | reuseaddr
  | v6only
  | readback
  | bind
  | listen
  deriving DecidableEq, Repr

/-- The setup step an event belongs to, if any. -/
def Event.setupStep : Event → Option SetupStep
  | Event.socket _ _ _ _ => some SetupStep.socket
  | Event.setsockopt _ _ OptName.SO_REUSEADDR _ _ _ => some SetupStep.reuseaddr
  | Event.setsockopt _ _ OptName.IPV6_V6ONLY _ _ _ => some SetupStep.v6only
  | Event.getsockopt _ _ _ _ => some SetupStep.readback
  | Event.bind _ _ _ _ => some SetupStep.bind
  | Event.listen _ _ _ => some SetupStep.listen
  | _ => none

/-- The setup steps a trace performs, in order. -/
def setupSteps (t : List Event) : List SetupStep := t.filterMap Event.setupStep

/-- Whether an event is an `accept` call. -/
def Event.isAccept : Event → Bool
  | Event.accept _ _ _ => true
  | _ => false

/-- A run that aborted in the setup: it performed exactly the setup steps `steps`, then printed
the error `msg`, closed the descriptor `fd` (the only `close` of the run) and exited with status
1; it printed no line of the banner and called `accept` never. -/
def AbortsAfter (steps : List SetupStep) (msg : String) (fd : Int) (r : Run) : Prop :=
  setupSteps r.trace = steps ∧
  (∃ pre cr, r.trace = pre ++ [Event.perror msg, Event.close fd cr]) ∧
  closes r.trace = [fd] ∧
  r.status = Status.exited 1 ∧
  (∀ ev ∈ banner, ev ∉ r.trace) ∧
  (∀ ev ∈ r.trace, ev.isAccept = false)

/-- The events of the setup up to and including the second `setsockopt`. -/
def setup_options (e : SetupEnv) : List Event :=
  [Event.socket Domain.AF_INET6 SockType.SOCK_STREAM 0 e.socket_ret,
   Event.setsockopt e.socket_ret Level.SOL_SOCKET OptName.SO_REUSEADDR 1 sizeof_int
     e.reuseaddr_ret,
   Event.setsockopt e.socket_ret Level.IPPROTO_IPV6 OptName.IPV6_V6ONLY 0 sizeof_int
     e.v6only_ret]

/-- The events of the setup from the readback up to and including `bind`. -/
def setup_bind (e : SetupEnv) : List Event :=
  [Event.getsockopt e.socket_ret Level.IPPROTO_IPV6 OptName.IPV6_V6ONLY e.getsockopt_ret,
   readback_line e,
   Event.bind e.socket_ret bind_address sizeof_sockaddr_in6 e.bind_ret]

/-- All events of a setup in which no call failed, up to and including `listen`. -/
def setup_calls (e : SetupEnv) : List Event :=
  setup_options e ++ setup_bind e ++ [Event.listen e.socket_ret 3 e.listen_ret]

/-! ## Spec-side readings of the response and sample environments -/

/-- The part of `s` that follows the first occurrence of `pat`, if `pat` occurs. -/
def afterFirst (pat : List Nat) : List Nat → Option (List Nat)
  | [] => if pat = [] then some [] else none
  | x :: xs =>
    if pat.isPrefixOf (x :: xs) then some ((x :: xs).drop pat.length) else afterFirst pat xs

/-- The number written in decimal digits at the head of `s`, if `s` starts with a digit. -/
def leadingDecimal (s : List Nat) : Option Nat :=
  let ds := s.takeWhile fun b => decide (48 ≤ b) && decide (b ≤ 57)
  if ds = [] then none else some (ds.foldl (fun acc d => 10 * acc + (d - 48)) 0)

/-- The value a response declares in its `Content-Length` header. -/
def declaredContentLength (resp : List Nat) : Option Nat :=
  (afterFirst (bytes "Content-Length: ") resp).bind leadingDecimal

/-- The body of a response: the bytes after the first empty line. -/
def responseBody (resp : List Nat) : Option (List Nat) :=
  afterFirst [10, 10] resp

/-- Setup answers in which every call succeeds and the socket is descriptor 3. -/
def env_ok : SetupEnv :=
  { socket_ret := 3, reuseaddr_ret := 0, v6only_ret := 0, getsockopt_ret := 0,
    returned_v6only := 0, bind_ret := 0, listen_ret := 0, close_ret := 0 }

/-- Setup answers in which `socket` fails with `-1`, and so does every call on that
descriptor. -/
def env_socket_error : SetupEnv :=
  { socket_ret := -1, reuseaddr_ret := -1, v6only_ret := -1, getsockopt_ret := -1,
    returned_v6only := 0, bind_ret := -1, listen_ret := -1, close_ret := -1 }

/-- Setup answers in which every call succeeds and `socket` returns descriptor 0 (the lowest
free descriptor when the process was started with standard input closed). -/
def env_descriptor_zero : SetupEnv :=
  { socket_ret := 0, reuseaddr_ret := 0, v6only_ret := 0, getsockopt_ret := 0,
    returned_v6only := 0, bind_ret := 0, listen_ret := 0, close_ret := 0 }

/-- A connection accepted as descriptor `fd` whose `read` delivers `bs` and whose `write`
sends the whole response. -/
def conn (fd : Int) (bs : List Nat) : ConnEnv :=
  { accept_ret := fd, accept_addrlen := 28, read_result := ReadResult.data bs, beyond := [],
    write_result := WriteResult.returned 75, close_ret := 0 }

/-- A connection attempt whose `accept` fails. -/
def conn_failed : ConnEnv :=
  { accept_ret := -1, accept_addrlen := 28, read_result := ReadResult.error, beyond := [],
    write_result := WriteResult.returned (-1), close_ret := -1 }

/-- A connection accepted as descriptor `fd` that the peer resets at once: `read` fails and
`write` raises `SIGPIPE`. -/
def conn_reset (fd : Int) : ConnEnv :=
  { accept_ret := fd, accept_addrlen := 28, read_result := ReadResult.error, beyond := [],
    write_result := WriteResult.sigpipe, close_ret := 0 }

/-! ## The serving protocol, as a recogniser on traces -/

/-- The lines sent to standard output by a trace, in order. -/
def printed (t : List Event) : List (List Nat) :=
  t.filterMap fun ev =>
    match ev with
    | Event.printf out => some out
    | _ => none

/-- Where the serve loop stands between two system calls. -/
inductive Phase
  | idle
  | accepted (fd : Int)
  | readDone (fd : Int)
  | written (fd : Int)
  | dead (fd : Int)
  deriving DecidableEq, Repr

/-- The system call the serving discipline allows next: in `idle` an `accept` on the listening
descriptor; after a successful `accept` one `read` of at most 1024 bytes on the accepted
descriptor, then one `write` on it, then - when the `write` returned - one `close` of it.
After a `write` that raised `SIGPIPE` the process is `dead` and no call is allowed. -/
def Phase.step (server_fd : Int) : Phase → Event → Option Phase
  | Phase.idle, Event.accept fd _ ret =>
    if fd = server_fd then (if ret < 0 then some Phase.idle else some (Phase.accepted ret))
    else none
  | Phase.accepted c, Event.read fd count ret =>
    if fd = c ∧ count ≤ 1024 ∧ ret ≤ (count : Int) then some (Phase.readDone c) else none
  | Phase.readDone c, Event.write fd _ _ (WriteResult.returned _) =>
    if fd = c then some (Phase.written c) else none
  | Phase.readDone c, Event.write fd _ _ WriteResult.sigpipe =>
    if fd = c then some (Phase.dead c) else none
  | Phase.written c, Event.close fd _ =>
    if fd = c then some Phase.idle else none
  | _, _ => none

/-- Run the serving discipline along a list of system calls; `none` when a call is out of
order. -/
def follows (server_fd : Int) : Phase → List Event → Option Phase
  | ph, [] => some ph
  | ph, ev :: t => (Phase.step server_fd ph ev).bind fun ph1 => follows server_fd ph1 t

/-- The accepted descriptors open after a trace, given those open before it. -/
def openAfter : List Int → List Event → List Int
  | l, [] => l
  | l, Event.accept _ _ ret :: t => if ret < 0 then openAfter l t else openAfter (ret :: l) t
  | l, Event.close fd _ :: t => openAfter (l.erase fd) t
  | l, _ :: t => openAfter l t

/-- The accepted descriptors a phase holds open. -/
def Phase.openConns : Phase → List Int
  | Phase.idle => []
  | Phase.accepted c => [c]
  | Phase.readDone c => [c]
  | Phase.written c => [c]
  | Phase.dead c => [c]

/-- Whether the turn of `c` ends the process: its `accept` succeeds and its `write` raises
`SIGPIPE`. -/
def ConnEnv.fatal (c : ConnEnv) : Bool :=
  decide (0 ≤ c.accept_ret) && decide (c.write_result = WriteResult.sigpipe)

/-- The connection attempts the process lives to make: all of them up to and including the
first whose turn ends the process. -/
def reached : List ConnEnv → List ConnEnv
  | [] => []
  | c :: cs => if c.fatal then [c] else c :: reached cs

/-- The values returned by the `accept` calls of a trace, in order. -/
def acceptReturns (t : List Event) : List Int :=
  t.filterMap fun ev =>
    match ev with
    | Event.accept _ _ ret => some ret
    | _ => none

/-- The `read` calls of a trace: descriptor and byte count asked for. -/
def reads (t : List Event) : List (Int × Nat) :=
  t.filterMap fun ev =>
    match ev with
    | Event.read fd count _ => some (fd, count)
    | _ => none

/-- The phase the serve loop ends in along `conns`: `dead` on the descriptor of the first
connection whose `write` raises `SIGPIPE`, `idle` when there is none. -/
def endPhase : List ConnEnv → Phase
  | [] => Phase.idle
  | c :: cs => if c.fatal then Phase.dead c.accept_ret else endPhase cs

/-- The connections served to the end: accepted, and the `write` returned. -/
def served (conns : List ConnEnv) : List ConnEnv :=
  (accepted conns).filter fun c => !c.fatal

/-- A trace made only of failed `accept` calls on the listening descriptor, each followed by
the log line `accept failed`. -/
def failedAcceptsOnly (server_fd : Int) : List Event → Bool
  | [] => true
  | Event.accept fd _ ret :: Event.perror msg :: t =>
    decide (fd = server_fd) && decide (ret < 0) && decide (msg = "accept failed")
      && failedAcceptsOnly server_fd t
  | _ => false

/-- The setup answers `e` with the outcome of the `getsockopt` call replaced. -/
def withReadback (e : SetupEnv) (ret value : Int) : SetupEnv :=
  { e with getsockopt_ret := ret, returned_v6only := value }

/-! ## General facts about the loop -/

theorem written_bytes : http_response.take (strlen http_response) = response_literal := by
  decide

theorem written_length : strlen http_response = 75 := by
  decide

theorem iteration_failed (fd : Int) (st : LoopState) (c : ConnEnv) (h : c.accept_ret < 0) :
    iteration fd st c =
      ([Event.accept fd st.addrlen c.accept_ret, Event.perror "accept failed"],
       some { st with addrlen := c.accept_addrlen }) := by
  simp [iteration, h]

theorem iteration_served (fd : Int) (st : LoopState) (c : ConnEnv) (r : Int)
    (h : 0 ≤ c.accept_ret) (hw : c.write_result = WriteResult.returned r) :
    iteration fd st c =
      ([Event.accept fd st.addrlen c.accept_ret,
        Event.read c.accept_ret BUFFER_SIZE (c.read_result.ret BUFFER_SIZE),
        Event.printf (request_dump (sys_read st.buffer BUFFER_SIZE c.read_result) c.beyond),
        Event.write c.accept_ret response_literal 75 (WriteResult.returned r),
        Event.close c.accept_ret c.close_ret],
       some { buffer := sys_read st.buffer BUFFER_SIZE c.read_result,
              addrlen := c.accept_addrlen }) := by
  have h1 : ¬ c.accept_ret < 0 := not_lt.mpr h
  have h2 : http_response.take 75 = response_literal := by decide
  simp [iteration, h1, written_length, h2, hw]

theorem iteration_killed (fd : Int) (st : LoopState) (c : ConnEnv)
    (h : 0 ≤ c.accept_ret) (hw : c.write_result = WriteResult.sigpipe) :
    iteration fd st c =
      ([Event.accept fd st.addrlen c.accept_ret,
        Event.read c.accept_ret BUFFER_SIZE (c.read_result.ret BUFFER_SIZE),
        Event.printf (request_dump (sys_read st.buffer BUFFER_SIZE c.read_result) c.beyond),
        Event.write c.accept_ret response_literal 75 WriteResult.sigpipe],
       none) := by
  have h1 : ¬ c.accept_ret < 0 := not_lt.mpr h
  have h2 : http_response.take 75 = response_literal := by decide
  simp [iteration, h1, written_length, h2, hw]

theorem not_fatal_cases (c : ConnEnv) (h : c.fatal = false) :
    c.accept_ret < 0 ∨ (0 ≤ c.accept_ret ∧ ∃ r, c.write_result = WriteResult.returned r) := by
  by_cases ha : 0 ≤ c.accept_ret
  · right
    refine ⟨ha, ?_⟩
    cases hw : c.write_result with
    | returned r => exact ⟨r, rfl⟩
    | sigpipe => simp [ConnEnv.fatal, ha, hw] at h
  · exact Or.inl (not_le.mp ha)

theorem fatal_cases (c : ConnEnv) (h : c.fatal = true) :
    0 ≤ c.accept_ret ∧ c.write_result = WriteResult.sigpipe := by
  simpa [ConnEnv.fatal] using h

theorem iteration_alive (fd : Int) (st : LoopState) (c : ConnEnv) (h : c.fatal = false) :
    ∃ st1, (iteration fd st c).2 = some st1 := by
  rcases not_fatal_cases c h with ha | ⟨ha, r, hw⟩
  · rw [iteration_failed fd st c ha]
    exact ⟨_, rfl⟩
  · rw [iteration_served fd st c r ha hw]
    exact ⟨_, rfl⟩

theorem iteration_fatal (fd : Int) (st : LoopState) (c : ConnEnv) (h : c.fatal = true) :
    (iteration fd st c).2 = none := by
  obtain ⟨ha, hw⟩ := fatal_cases c h
  rw [iteration_killed fd st c ha hw]

theorem serve_cons_alive (fd : Int) (st st1 : LoopState) (c : ConnEnv) (cs : List ConnEnv)
    (h : (iteration fd st c).2 = some st1) :
    serve fd st (c :: cs) =
      { trace := (iteration fd st c).1 ++ (serve fd st1 cs).trace,
        status := (serve fd st1 cs).status } := by
  rw [serve]
  simp [h]

theorem serve_cons_killed (fd : Int) (st : LoopState) (c : ConnEnv) (cs : List ConnEnv)
    (h : (iteration fd st c).2 = none) :
    serve fd st (c :: cs) =
      { trace := (iteration fd st c).1, status := Status.killed SIGPIPE } := by
  rw [serve]
  simp [h]

theorem loopStateAfter_cons_alive (fd : Int) (st st1 : LoopState) (c : ConnEnv)
    (cs : List ConnEnv) (h : (iteration fd st c).2 = some st1) :
    loopStateAfter fd st (c :: cs) = loopStateAfter fd st1 cs := by
  rw [loopStateAfter]
  simp [h]

theorem loopStateAfter_cons_killed (fd : Int) (st : LoopState) (c : ConnEnv)
    (cs : List ConnEnv) (h : (iteration fd st c).2 = none) :
    loopStateAfter fd st (c :: cs) = none := by
  rw [loopStateAfter]
  simp [h]

/-- While the process lives through the turns for `a`, the run along `a ++ b` is the run along
`a` followed by the run along `b` from the loop variables reached. -/
theorem serve_append (fd : Int) (a b : List ConnEnv) (st st1 : LoopState)
    (h : loopStateAfter fd st a = some st1) :
    (serve fd st (a ++ b)).trace = (serve fd st a).trace ++ (serve fd st1 b).trace ∧
    (serve fd st (a ++ b)).status = (serve fd st1 b).status := by
  induction a generalizing st with
  | nil =>
    simp only [loopStateAfter, Option.some.injEq] at h
    subst h
    simp [serve]
  | cons c cs ih =>
    cases hi : (iteration fd st c).2 with
    | none => rw [loopStateAfter_cons_killed fd st c cs hi] at h; exact absurd h (by simp)
    | some st2 =>
      rw [loopStateAfter_cons_alive fd st st2 c cs hi] at h
      have := ih st2 h
      rw [List.cons_append, serve_cons_alive fd st st2 c _ hi, serve_cons_alive fd st st2 c _ hi]
      simp [this.1, this.2]

theorem serve_status_alive (fd : Int) (a : List ConnEnv) (st st1 : LoopState)
    (h : loopStateAfter fd st a = some st1) : (serve fd st a).status = Status.running := by
  have := (serve_append fd a [] st st1 h).2
  rw [List.append_nil] at this
  rw [this]
  rfl

theorem loopStateAfter_of_not_fatal (fd : Int) (a : List ConnEnv) (st : LoopState)
    (h : ∀ p ∈ a, p.fatal = false) : ∃ st1, loopStateAfter fd st a = some st1 := by
  induction a generalizing st with
  | nil => exact ⟨st, rfl⟩
  | cons c cs ih =>
    obtain ⟨st2, hi⟩ := iteration_alive fd st c (h c (List.mem_cons_self _ _))
    rw [loopStateAfter_cons_alive fd st st2 c cs hi]
    exact ih st2 (fun p hp => h p (List.mem_cons_of_mem _ hp))

theorem not_fatal_of_loopStateAfter (fd : Int) (a : List ConnEnv) (st st1 : LoopState)
    (h : loopStateAfter fd st a = some st1) : ∀ p ∈ a, p.fatal = false := by
  induction a generalizing st with
  | nil => intro p hp; exact absurd hp (List.not_mem_nil _)
  | cons c cs ih =>
    cases hf : c.fatal with
    | true =>
      rw [loopStateAfter_cons_killed fd st c cs (iteration_fatal fd st c hf)] at h
      exact absurd h (by simp)
    | false =>
      obtain ⟨st2, hi⟩ := iteration_alive fd st c hf
      rw [loopStateAfter_cons_alive fd st st2 c cs hi] at h
      intro p hp
      rcases List.mem_cons.mp hp with rfl | hp1
      · exact hf
      · exact ih st2 h p hp1

/-- The run takes no notice of the connection attempts after the one that ends the process. -/
theorem serve_reached (fd : Int) (conns : List ConnEnv) (st : LoopState) :
    serve fd st (reached conns) = serve fd st conns := by
  induction conns generalizing st with
  | nil => rfl
  | cons c cs ih =>
    cases hf : c.fatal with
    | true =>
      have hi := iteration_fatal fd st c hf
      simp only [reached, hf, if_true]
      rw [serve_cons_killed fd st c _ hi, serve_cons_killed fd st c _ hi]
    | false =>
      obtain ⟨st2, hi⟩ := iteration_alive fd st c hf
      simp only [reached, hf]
      rw [if_neg (by simp), serve_cons_alive fd st st2 c _ hi, serve_cons_alive fd st st2 c _ hi,
        ih st2]

theorem reached_of_running (fd : Int) (conns : List ConnEnv) (st : LoopState)
    (h : (serve fd st conns).status = Status.running) : reached conns = conns := by
  induction conns generalizing st with
  | nil => rfl
  | cons c cs ih =>
    cases hf : c.fatal with
    | true =>
      rw [serve_cons_killed fd st c _ (iteration_fatal fd st c hf)] at h
      exact absurd h (by simp)
    | false =>
      obtain ⟨st2, hi⟩ := iteration_alive fd st c hf
      rw [serve_cons_alive fd st st2 c _ hi] at h
      simp only [reached, hf]
      rw [if_neg (by simp), ih st2 h]

theorem serve_status (fd : Int) (conns : List ConnEnv) (st : LoopState) :
    (serve fd st conns).status = Status.running ∨
      (serve fd st conns).status = Status.killed SIGPIPE := by
  induction conns generalizing st with
  | nil => exact Or.inl rfl
  | cons c cs ih =>
    cases hi : (iteration fd st c).2 with
    | none => rw [serve_cons_killed fd st c _ hi]; exact Or.inr rfl
    | some st2 => rw [serve_cons_alive fd st st2 c _ hi]; exact ih st2

/-! ## The setup -/

theorem readback_line_not_banner (e : SetupEnv) : readback_line e ∉ banner := by
  have h1 : bytes "IPV6_V6ONLY is currently set to: " = 73 :: (bytes "PV6_V6ONLY is currently set to: ") := by decide
  have h2 : bytes "Server listening on [::1] port " = 83 :: (bytes "erver listening on [::1] port ") := by decide
  have h3 : bytes "Test with curl: \n" = 84 :: (bytes "est with curl: \n") := by decide
  have h4 : bytes "  curl -6 http://[::1]:" = 32 :: (bytes " curl -6 http://[::1]:") := by decide
  have h5 : bytes "  curl -4 http://127.0.0.1:" = 32 :: (bytes " curl -4 http://127.0.0.1:") := by decide
  unfold readback_line banner
  split_ifs
  · simp [h1, h2, h3, h4, h5]
  · simp

theorem main_reuseaddr_fails (e : SetupEnv) (conns : List ConnEnv)
    (h0 : e.socket_ret ≠ 0) (h1 : e.reuseaddr_ret ≠ 0) :
    main e conns =
      { trace := [Event.socket Domain.AF_INET6 SockType.SOCK_STREAM 0 e.socket_ret,
          Event.setsockopt e.socket_ret Level.SOL_SOCKET OptName.SO_REUSEADDR 1 sizeof_int
            e.reuseaddr_ret]
          ++ [Event.perror "setsockopt SO_REUSEADDR failed",
              Event.close e.socket_ret e.close_ret],
        status := Status.exited 1 } := by
  simp [main, h0, h1, EXIT_FAILURE]

theorem main_v6only_fails (e : SetupEnv) (conns : List ConnEnv)
    (h0 : e.socket_ret ≠ 0) (h1 : e.reuseaddr_ret = 0) (h2 : e.v6only_ret ≠ 0) :
    main e conns =
      { trace := setup_options e
          ++ [Event.perror "setsockopt IPV6_V6ONLY failed",
              Event.close e.socket_ret e.close_ret],
        status := Status.exited 1 } := by
  simp [main, h0, h1, h2, EXIT_FAILURE, setup_options]

theorem main_bind_fails (e : SetupEnv) (conns : List ConnEnv)
    (h0 : e.socket_ret ≠ 0) (h1 : e.reuseaddr_ret = 0) (h2 : e.v6only_ret = 0)
    (h3 : e.bind_ret < 0) :
    main e conns =
      { trace := (setup_options e ++ setup_bind e)
          ++ [Event.perror "bind failed", Event.close e.socket_ret e.close_ret],
        status := Status.exited 1 } := by
  simp [main, h0, h1, h2, h3, EXIT_FAILURE, setup_options, setup_bind, LoopState.init]

theorem main_listen_fails (e : SetupEnv) (conns : List ConnEnv)
    (h0 : e.socket_ret ≠ 0) (h1 : e.reuseaddr_ret = 0) (h2 : e.v6only_ret = 0)
    (h3 : 0 ≤ e.bind_ret) (h4 : e.listen_ret < 0) :
    main e conns =
      { trace := (setup_options e ++ setup_bind e ++ [Event.listen e.socket_ret 3 e.listen_ret])
          ++ [Event.perror "listen failed", Event.close e.socket_ret e.close_ret],
        status := Status.exited 1 } := by
  have h3n : ¬ e.bind_ret < 0 := not_lt.mpr h3
  simp [main, h0, h1, h2, h3n, h4, EXIT_FAILURE, setup_options, setup_bind, LoopState.init]

theorem main_setup_succeeds (e : SetupEnv) (conns : List ConnEnv)
    (h0 : e.socket_ret ≠ 0) (h1 : e.reuseaddr_ret = 0) (h2 : e.v6only_ret = 0)
    (h3 : 0 ≤ e.bind_ret) (h4 : 0 ≤ e.listen_ret) :
    main e conns =
      { trace := setup_options e ++ setup_bind e ++ [Event.listen e.socket_ret 3 e.listen_ret]
          ++ banner ++ (serve e.socket_ret LoopState.init conns).trace,
        status := (serve e.socket_ret LoopState.init conns).status } := by
  have h3n : ¬ e.bind_ret < 0 := not_lt.mpr h3
  have h4n : ¬ e.listen_ret < 0 := not_lt.mpr h4
  simp [main, h0, h1, h2, h3n, h4n, setup_options, setup_bind, LoopState.init]

theorem setupStep_readback_line (e : SetupEnv) : (readback_line e).setupStep = none := by
  unfold readback_line
  split_ifs <;> rfl

theorem isAccept_readback_line (e : SetupEnv) : (readback_line e).isAccept = false := by
  unfold readback_line
  split_ifs <;> rfl

theorem closes_readback_line (e : SetupEnv) (t : List Event) :
    closes (readback_line e :: t) = closes t := by
  unfold readback_line
  split_ifs <;> rfl

theorem setupSteps_append (a b : List Event) :
    setupSteps (a ++ b) = setupSteps a ++ setupSteps b := by
  simp [setupSteps, List.filterMap_append]

theorem closes_append (a b : List Event) : closes (a ++ b) = closes a ++ closes b := by
  simp [closes, List.filterMap_append]

theorem setupSteps_setup_options (e : SetupEnv) :
    setupSteps (setup_options e)
      = [SetupStep.socket, SetupStep.reuseaddr, SetupStep.v6only] := by
  rfl

theorem setupSteps_setup_bind (e : SetupEnv) :
    setupSteps (setup_bind e) = [SetupStep.readback, SetupStep.bind] := by
  unfold setup_bind readback_line
  split_ifs <;> rfl

theorem closes_setup_options (e : SetupEnv) : closes (setup_options e) = [] := by
  rfl

theorem closes_setup_bind (e : SetupEnv) : closes (setup_bind e) = [] := by
  unfold setup_bind readback_line
  split_ifs <;> rfl

theorem setup_calls_not_accept (e : SetupEnv) (ev : Event) (hev : ev ∈ setup_calls e) :
    ev.isAccept = false := by
  simp only [setup_calls, setup_options, setup_bind, List.mem_append, List.mem_cons,
    List.mem_singleton, List.not_mem_nil, or_false] at hev
  rcases hev with ((h | h | h) | (h | h | h)) | h
  all_goals first | (subst h; rfl) | (subst h; exact isAccept_readback_line e)

theorem setup_calls_not_banner (e : SetupEnv) (ev : Event) (hev : ev ∈ banner) :
    ev ∉ setup_calls e := by
  have hb := readback_line_not_banner e
  intro hmem
  simp only [setup_calls, setup_options, setup_bind, List.mem_append, List.mem_cons,
    List.mem_singleton, List.not_mem_nil, or_false] at hmem
  have hk : ev = readback_line e ∨ ev.isSyscall = true := by
    rcases hmem with ((h | h | h) | (h | h | h)) | h
    all_goals first | exact Or.inl h | (subst h; exact Or.inr rfl)
  rcases hk with h | h
  · exact hb (h ▸ hev)
  · simp only [banner, List.mem_cons, List.mem_singleton, List.not_mem_nil, or_false] at hev
    rcases hev with h1 | h1 | h1 | h1 <;> subst h1 <;> simp [Event.isSyscall] at h

/-- A setup that stops after some of its calls with an error message and a `close` prints no
banner line and calls `accept` never. -/
theorem abort_quiet (e : SetupEnv) (p : List Event) (hp : ∀ ev ∈ p, ev ∈ setup_calls e)
    (msg : String) (fd cr : Int) :
    (∀ ev ∈ banner, ev ∉ p ++ [Event.perror msg, Event.close fd cr]) ∧
    (∀ ev ∈ p ++ [Event.perror msg, Event.close fd cr], ev.isAccept = false) := by
  constructor
  · intro ev hev hmem
    rcases List.mem_append.mp hmem with h | h
    · exact setup_calls_not_banner e ev hev (hp ev h)
    · simp only [banner, List.mem_cons, List.mem_singleton, List.not_mem_nil, or_false] at hev h
      rcases hev with h1 | h1 | h1 | h1 <;> subst h1 <;> simp at h
  · intro ev hmem
    rcases List.mem_append.mp hmem with h | h
    · exact setup_calls_not_accept e ev (hp ev h)
    · simp only [List.mem_cons, List.mem_singleton, List.not_mem_nil, or_false] at h
      rcases h with h | h <;> subst h <;> rfl

theorem writes_append (a b : List Event) : writes (a ++ b) = writes a ++ writes b := by
  simp [writes, List.filterMap_append]

theorem mem_writes {t : List Event} {fd : Int} {buf : List Nat} {count : Nat} {res : WriteResult}
    (h : Event.write fd buf count res ∈ t) : (fd, buf, count) ∈ writes t := by
  unfold writes
  rw [List.mem_filterMap]
  exact ⟨_, h, rfl⟩

/-! ## Runs of `main` -/

/-- The setup alone either enters the serve loop or exits with status 1. -/
theorem main_setup_status (e : SetupEnv) :
    (main e []).status = Status.running ∨ (main e []).status = Status.exited 1 := by
  unfold main
  simp only []
  split_ifs
  all_goals first | exact Or.inl rfl | exact Or.inr rfl

/-- A run whose setup fails is the same whatever connections are waiting. -/
theorem main_exited (e : SetupEnv) (conns : List ConnEnv)
    (h : (main e []).status ≠ Status.running) : main e conns = main e [] := by
  unfold main at h ⊢
  simp only [] at h ⊢
  split_ifs at h ⊢
  all_goals first | rfl | exact absurd rfl h

/-- After a successful setup the run is the trace of the setup followed by the run of the
serve loop on the listening descriptor. -/
theorem main_running (e : SetupEnv) (conns : List ConnEnv)
    (h : (main e []).status = Status.running) :
    (main e conns).trace
      = (main e []).trace ++ (serve e.socket_ret LoopState.init conns).trace ∧
    (main e conns).status = (serve e.socket_ret LoopState.init conns).status := by
  unfold main at h ⊢
  simp only [] at h ⊢
  split_ifs at h ⊢
  all_goals simp_all [serve]

theorem main_setup_of_running (e : SetupEnv) (conns : List ConnEnv)
    (h : (main e conns).status = Status.running) : (main e []).status = Status.running := by
  by_contra hn
  rw [main_exited e conns hn] at h
  exact hn h

theorem writes_setup (e : SetupEnv) : writes (main e []).trace = [] := by
  unfold main readback_line
  simp only []
  split_ifs <;> rfl

theorem writes_serve (fd : Int) (st : LoopState) (conns : List ConnEnv) :
    writes (serve fd st conns).trace
      = (accepted (reached conns)).map fun c => (c.accept_ret, response_literal, 75) := by
  induction conns generalizing st with
  | nil => rfl
  | cons c cs ih =>
    cases hf : c.fatal with
    | true =>
      obtain ⟨ha, hw⟩ := fatal_cases c hf
      rw [serve_cons_killed fd st c _ (iteration_fatal fd st c hf),
        iteration_killed fd st c ha hw]
      simp [writes, accepted, reached, hf, ha]
    | false =>
      have hr : reached (c :: cs) = c :: reached cs := by simp [reached, hf]
      rcases not_fatal_cases c hf with ha | ⟨ha, r, hw⟩
      · have hi := iteration_failed fd st c ha
        rw [serve_cons_alive fd st _ c _ (by rw [hi]), hi, hr]
        simp only [writes_append, ih]
        simp [writes, accepted, not_le.mpr ha]
      · have hi := iteration_served fd st c r ha hw
        rw [serve_cons_alive fd st _ c _ (by rw [hi]), hi, hr]
        simp only [writes_append, ih]
        simp [writes, accepted, ha]

theorem writes_main (e : SetupEnv) (conns : List ConnEnv)
    (h : (main e []).status = Status.running) :
    writes (main e conns).trace
      = (accepted (reached conns)).map fun c => (c.accept_ret, response_literal, 75) := by
  rw [(main_running e conns h).1, writes_append, writes_setup, writes_serve]
  rfl

theorem writes_main_running (e : SetupEnv) (conns : List ConnEnv)
    (h : (main e conns).status = Status.running) :
    writes (main e conns).trace
      = (accepted conns).map fun c => (c.accept_ret, response_literal, 75) := by
  have hs := main_setup_of_running e conns h
  rw [writes_main e conns hs]
  rw [(main_running e conns hs).2] at h
  rw [reached_of_running _ conns _ h]

/-- When `socket` returns a non-zero descriptor and no later setup call fails, the system calls
before the serve loop are exactly the six setup calls, in order, all on the descriptor
`socket` returned, with the option values, address and backlog of the source. -/
theorem setup_sequence (e : SetupEnv) (conns : List ConnEnv)
    (h0 : e.socket_ret ≠ 0) (h1 : e.reuseaddr_ret = 0) (h2 : e.v6only_ret = 0)
    (h3 : 0 ≤ e.bind_ret) (h4 : 0 ≤ e.listen_ret) :
    ∃ t, (main e conns).trace = t ++ (serve e.socket_ret LoopState.init conns).trace ∧
      syscalls t =
        [Event.socket Domain.AF_INET6 SockType.SOCK_STREAM 0 e.socket_ret,
         Event.setsockopt e.socket_ret Level.SOL_SOCKET OptName.SO_REUSEADDR 1 4 e.reuseaddr_ret,
         Event.setsockopt e.socket_ret Level.IPPROTO_IPV6 OptName.IPV6_V6ONLY 0 4 e.v6only_ret,
         Event.getsockopt e.socket_ret Level.IPPROTO_IPV6 OptName.IPV6_V6ONLY e.getsockopt_ret,
         Event.bind e.socket_ret
           { sin6_family := Domain.AF_INET6
             sin6_port := [8080 / 256, 8080 % 256]
             sin6_flowinfo := 0
             sin6_addr := [0, 0, 0, 0, 0, 0, 0, 0, 0, 0, 0, 0, 0, 0, 0, 1]
             sin6_scope_id := 0 }
           28 e.bind_ret,
         Event.listen e.socket_ret 3 e.listen_ret] := by
  rw [main_setup_succeeds e conns h0 h1 h2 h3 h4]
  refine ⟨_, rfl, ?_⟩
  unfold setup_options setup_bind banner readback_line
  split_ifs <;> rfl

theorem setup_no_accept (e : SetupEnv) : ∀ ev ∈ (main e []).trace, ev.isAccept = false := by
  unfold main readback_line banner
  simp only []
  split_ifs <;> simp [serve, Event.isAccept]

/-! ## The serving discipline -/

theorem follows_append (fd : Int) (a b : List Event) (ph : Phase) :
    follows fd ph (a ++ b) = (follows fd ph a).bind fun ph1 => follows fd ph1 b := by
  induction a generalizing ph with
  | nil => simp [follows]
  | cons ev t ih =>
    simp only [List.cons_append, follows]
    cases Phase.step fd ph ev with
    | none => rfl
    | some ph1 => simpa using ih ph1

theorem syscalls_append (a b : List Event) : syscalls (a ++ b) = syscalls a ++ syscalls b := by
  simp [syscalls]

theorem read_ret_le (r : ReadResult) (count : Nat) : r.ret count ≤ (count : Int) := by
  cases r with
  | error => simp only [ReadResult.ret]; omega
  | data bs =>
    simp only [ReadResult.ret, List.length_take]
    omega

theorem stored_length_le (r : ReadResult) (count : Nat) : (r.stored count).length ≤ count := by
  cases r with
  | error => simp [ReadResult.stored]
  | data bs => simp [ReadResult.stored, List.length_take]

theorem read_ret_le_buffer (r : ReadResult) : r.ret 1024 ≤ 1024 := by
  have := read_ret_le r 1024
  exact_mod_cast this

theorem follows_failed (fd : Int) (st : LoopState) (c : ConnEnv) (h : c.accept_ret < 0) :
    follows fd Phase.idle (syscalls (iteration fd st c).1) = some Phase.idle := by
  rw [iteration_failed fd st c h]
  simp [syscalls, Event.isSyscall, follows, Phase.step, h]

theorem follows_served (fd : Int) (st : LoopState) (c : ConnEnv) (r : Int)
    (h : 0 ≤ c.accept_ret) (hw : c.write_result = WriteResult.returned r) :
    follows fd Phase.idle (syscalls (iteration fd st c).1) = some Phase.idle := by
  rw [iteration_served fd st c r h hw]
  have h1 : ¬ c.accept_ret < 0 := not_lt.mpr h
  simp [syscalls, Event.isSyscall, follows, Phase.step, h1, read_ret_le_buffer, BUFFER_SIZE]

theorem follows_killed (fd : Int) (st : LoopState) (c : ConnEnv)
    (h : 0 ≤ c.accept_ret) (hw : c.write_result = WriteResult.sigpipe) :
    follows fd Phase.idle (syscalls (iteration fd st c).1) = some (Phase.dead c.accept_ret) := by
  rw [iteration_killed fd st c h hw]
  have h1 : ¬ c.accept_ret < 0 := not_lt.mpr h
  simp [syscalls, Event.isSyscall, follows, Phase.step, h1, read_ret_le_buffer, BUFFER_SIZE]

theorem follows_serve (fd : Int) (st : LoopState) (conns : List ConnEnv) :
    follows fd Phase.idle (syscalls (serve fd st conns).trace) = some (endPhase conns) := by
  induction conns generalizing st with
  | nil => rfl
  | cons c cs ih =>
    cases hf : c.fatal with
    | true =>
      obtain ⟨ha, hw⟩ := fatal_cases c hf
      rw [serve_cons_killed fd st c _ (iteration_fatal fd st c hf)]
      simp only [endPhase, hf, if_true]
      exact follows_killed fd st c ha hw
    | false =>
      obtain ⟨st2, hi⟩ := iteration_alive fd st c hf
      rw [serve_cons_alive fd st st2 c _ hi]
      have hturn : follows fd Phase.idle (syscalls (iteration fd st c).1) = some Phase.idle := by
        rcases not_fatal_cases c hf with ha | ⟨ha, r, hw⟩
        · exact follows_failed fd st c ha
        · exact follows_served fd st c r ha hw
      simp only [endPhase, hf]
      rw [if_neg (by simp), syscalls_append, follows_append, hturn]
      exact ih st2

theorem openAfter_syscalls (l : List Int) (t : List Event) :
    openAfter l (syscalls t) = openAfter l t := by
  induction t generalizing l with
  | nil => rfl
  | cons ev t ih =>
    cases ev <;> simp [syscalls, Event.isSyscall, openAfter] <;>
      first
        | exact ih _
        | (split_ifs <;> exact ih _)

theorem openAfter_follows (fd : Int) (t : List Event) (ph ph1 : Phase)
    (h : follows fd ph t = some ph1) : openAfter ph.openConns t = ph1.openConns := by
  induction t generalizing ph with
  | nil =>
    simp only [follows, Option.some.injEq] at h
    subst h
    rfl
  | cons ev t ih =>
    simp only [follows] at h
    cases hs : Phase.step fd ph ev with
    | none => simp [hs] at h
    | some ph2 =>
      rw [hs] at h
      have h2 := ih ph2 (by simpa using h)
      rw [← h2]
      cases ph <;> cases ev <;> simp [Phase.step] at hs
      · obtain ⟨_, hs2⟩ := hs
        split_ifs at hs2 with hr
        all_goals
          simp only [Option.some.injEq] at hs2
          subst hs2
          simp [openAfter, Phase.openConns, hr]
      · obtain ⟨_, rfl⟩ := hs
        simp [openAfter, Phase.openConns]
      · rename_i c fd1 buf count res
        cases res with
        | returned r =>
          simp only [Phase.step] at hs
          split_ifs at hs
          simp only [Option.some.injEq] at hs
          subst hs
          simp [openAfter, Phase.openConns]
        | sigpipe =>
          simp only [Phase.step] at hs
          split_ifs at hs
          simp only [Option.some.injEq] at hs
          subst hs
          simp [openAfter, Phase.openConns]
      · obtain ⟨rfl, rfl⟩ := hs
        simp [openAfter, Phase.openConns]

theorem open_at_most_one (fd : Int) (st : LoopState) (conns : List ConnEnv)
    (p s : List Event) (h : p ++ s = (serve fd st conns).trace) :
    (openAfter [] p).length ≤ 1 := by
  have hf := follows_serve fd st conns
  rw [← h, syscalls_append, follows_append] at hf
  cases hp : follows fd Phase.idle (syscalls p) with
  | none => simp [hp] at hf
  | some ph =>
    have ho := openAfter_follows fd _ Phase.idle ph hp
    rw [openAfter_syscalls] at ho
    have hi : Phase.idle.openConns = [] := rfl
    rw [hi] at ho
    rw [ho]
    cases ph <;> simp [Phase.openConns]

/-! ## What the serve loop calls, and how often -/

theorem acceptReturns_append (a b : List Event) :
    acceptReturns (a ++ b) = acceptReturns a ++ acceptReturns b := by
  simp [acceptReturns, List.filterMap_append]

theorem reads_append (a b : List Event) : reads (a ++ b) = reads a ++ reads b := by
  simp [reads, List.filterMap_append]

/-- What one turn contributes to the `accept`, `read` and `close` calls of the trace. -/
theorem iteration_calls (fd : Int) (st : LoopState) (c : ConnEnv) :
    acceptReturns (iteration fd st c).1 = [c.accept_ret] ∧
    reads (iteration fd st c).1 = (accepted [c]).map (fun c => (c.accept_ret, 1024)) ∧
    closes (iteration fd st c).1 = (served [c]).map (fun c => c.accept_ret) := by
  by_cases ha : 0 ≤ c.accept_ret
  · cases hw : c.write_result with
    | returned r =>
      rw [iteration_served fd st c r ha hw]
      simp [acceptReturns, reads, closes, accepted, served, ConnEnv.fatal, ha, hw, BUFFER_SIZE]
    | sigpipe =>
      rw [iteration_killed fd st c ha hw]
      simp [acceptReturns, reads, closes, accepted, served, ConnEnv.fatal, ha, hw, BUFFER_SIZE]
  · rw [iteration_failed fd st c (not_le.mp ha)]
    simp [acceptReturns, reads, closes, accepted, served, ha]

theorem accepted_cons (c : ConnEnv) (cs : List ConnEnv) :
    accepted (c :: cs) = accepted [c] ++ accepted cs := by
  simp only [accepted, List.filter_cons, List.filter_nil]
  split_ifs <;> rfl

theorem served_cons (c : ConnEnv) (cs : List ConnEnv) :
    served (c :: cs) = served [c] ++ served cs := by
  unfold served
  rw [accepted_cons, List.filter_append]

theorem serve_calls (fd : Int) (st : LoopState) (conns : List ConnEnv) :
    acceptReturns (serve fd st conns).trace = (reached conns).map (fun c => c.accept_ret) ∧
    reads (serve fd st conns).trace
      = (accepted (reached conns)).map (fun c => (c.accept_ret, 1024)) ∧
    closes (serve fd st conns).trace = (served (reached conns)).map (fun c => c.accept_ret) := by
  induction conns generalizing st with
  | nil => exact ⟨rfl, rfl, rfl⟩
  | cons c cs ih =>
    have hc := iteration_calls fd st c
    cases hf : c.fatal with
    | true =>
      rw [serve_cons_killed fd st c _ (iteration_fatal fd st c hf)]
      have hr : reached (c :: cs) = [c] := by simp [reached, hf]
      rw [hr]
      exact ⟨by rw [hc.1]; rfl, hc.2.1, hc.2.2⟩
    | false =>
      obtain ⟨st2, hi⟩ := iteration_alive fd st c hf
      rw [serve_cons_alive fd st st2 c _ hi]
      have hr : reached (c :: cs) = c :: reached cs := by simp [reached, hf]
      have h2 := ih st2
      rw [hr, accepted_cons, served_cons]
      refine ⟨?_, ?_, ?_⟩
      · show acceptReturns (_ ++ _) = _
        rw [acceptReturns_append, hc.1, h2.1]
        rfl
      · show reads (_ ++ _) = _
        rw [reads_append, hc.2.1, h2.2.1, List.map_append]
      · show closes (_ ++ _) = _
        rw [closes_append, hc.2.2, h2.2.2, List.map_append]

theorem serve_status_eq (fd : Int) (st : LoopState) (conns : List ConnEnv) :
    (serve fd st conns).status
      = if conns.any ConnEnv.fatal then Status.killed SIGPIPE else Status.running := by
  induction conns generalizing st with
  | nil => rfl
  | cons c cs ih =>
    cases hf : c.fatal with
    | true =>
      rw [serve_cons_killed fd st c _ (iteration_fatal fd st c hf)]
      simp [hf]
    | false =>
      obtain ⟨st2, hi⟩ := iteration_alive fd st c hf
      rw [serve_cons_alive fd st st2 c _ hi]
      simp only [List.any_cons, hf, Bool.false_or]
      exact ih st2

/-! ## Failed `accept` calls -/

theorem fatal_of_failed (c : ConnEnv) (h : c.accept_ret < 0) : c.fatal = false := by
  simp [ConnEnv.fatal, h]

/-- Turns whose `accept` fails: two events each, the buffer untouched, the process alive. -/
theorem serve_failed (fd : Int) (fails : List ConnEnv) (st : LoopState)
    (hf : ∀ f ∈ fails, f.accept_ret < 0) :
    failedAcceptsOnly fd (serve fd st fails).trace = true ∧
    (serve fd st fails).trace.length = 2 * fails.length ∧
    ∃ st1, loopStateAfter fd st fails = some st1 ∧ st1.buffer = st.buffer := by
  induction fails generalizing st with
  | nil => exact ⟨rfl, rfl, st, rfl, rfl⟩
  | cons f fs ih =>
    have h1 : f.accept_ret < 0 := hf f (List.mem_cons_self _ _)
    have hi := iteration_failed fd st f h1
    obtain ⟨h2, h3, st1, h4, h5⟩ := ih { st with addrlen := f.accept_addrlen }
      (fun g hg => hf g (List.mem_cons_of_mem _ hg))
    rw [serve_cons_alive fd st _ f _ (by rw [hi]), loopStateAfter_cons_alive fd st _ f _ (by rw [hi]),
      hi]
    refine ⟨?_, ?_, st1, h4, h5⟩
    · simp [failedAcceptsOnly, h1, h2]
    · simp [h3]
      omega

/-! ## The turn of an accepted connection -/

/-- The run at an accepted connection whose `write` returns: the turns before it, the five
events of its own turn, the run after it. -/
theorem serve_at_returned (fd : Int) (st st0 : LoopState) (pre : List ConnEnv) (c : ConnEnv)
    (post : List ConnEnv) (r : Int)
    (hpre : loopStateAfter fd st pre = some st0)
    (hc : 0 ≤ c.accept_ret) (hw : c.write_result = WriteResult.returned r) :
    (serve fd st (pre ++ c :: post)).trace =
      (serve fd st pre).trace ++
        [Event.accept fd st0.addrlen c.accept_ret,
         Event.read c.accept_ret BUFFER_SIZE (c.read_result.ret BUFFER_SIZE),
         Event.printf (request_dump (sys_read st0.buffer BUFFER_SIZE c.read_result) c.beyond),
         Event.write c.accept_ret response_literal 75 (WriteResult.returned r),
         Event.close c.accept_ret c.close_ret] ++
        (serve fd
          { buffer := sys_read st0.buffer BUFFER_SIZE c.read_result,
            addrlen := c.accept_addrlen } post).trace ∧
    (serve fd st (pre ++ c :: post)).status =
      (serve fd
        { buffer := sys_read st0.buffer BUFFER_SIZE c.read_result,
          addrlen := c.accept_addrlen } post).status := by
  have hi := iteration_served fd st0 c r hc hw
  have ha := serve_append fd pre (c :: post) st st0 hpre
  rw [ha.1, ha.2, serve_cons_alive fd st0 _ c _ (by rw [hi]), hi]
  simp

/-- The run at an accepted connection whose `write` raises `SIGPIPE`: the turns before it and
the four events up to the `write`, nothing more. -/
theorem serve_at_sigpipe (fd : Int) (st st0 : LoopState) (pre : List ConnEnv) (c : ConnEnv)
    (post : List ConnEnv)
    (hpre : loopStateAfter fd st pre = some st0)
    (hc : 0 ≤ c.accept_ret) (hw : c.write_result = WriteResult.sigpipe) :
    (serve fd st (pre ++ c :: post)).trace =
      (serve fd st pre).trace ++
        [Event.accept fd st0.addrlen c.accept_ret,
         Event.read c.accept_ret BUFFER_SIZE (c.read_result.ret BUFFER_SIZE),
         Event.printf (request_dump (sys_read st0.buffer BUFFER_SIZE c.read_result) c.beyond),
         Event.write c.accept_ret response_literal 75 WriteResult.sigpipe] ∧
    (serve fd st (pre ++ c :: post)).status = Status.killed SIGPIPE := by
  have hi := iteration_killed fd st0 c hc hw
  have ha := serve_append fd pre (c :: post) st st0 hpre
  rw [ha.1, ha.2, serve_cons_killed fd st0 c _ (by rw [hi]), hi]
  exact ⟨rfl, rfl⟩

/-! ## The buffer across turns -/

theorem iteration_state (fd : Int) (st st1 : LoopState) (c : ConnEnv)
    (h : (iteration fd st c).2 = some st1) :
    (c.accept_ret < 0 ∧ st1.buffer = st.buffer) ∨
    (0 ≤ c.accept_ret ∧ st1.buffer = sys_read st.buffer BUFFER_SIZE c.read_result) := by
  by_cases ha : 0 ≤ c.accept_ret
  · cases hw : c.write_result with
    | returned r =>
      rw [iteration_served fd st c r ha hw] at h
      simp only [Option.some.injEq] at h
      subst h
      exact Or.inr ⟨ha, rfl⟩
    | sigpipe =>
      rw [iteration_killed fd st c ha hw] at h
      exact absurd h (by simp)
  · rw [iteration_failed fd st c (not_le.mp ha)] at h
    simp only [Option.some.injEq] at h
    subst h
    exact Or.inl ⟨not_le.mp ha, rfl⟩

/-! ## The request buffer -/

theorem takeWhile_append_all {p : Nat → Bool} (l m : List Nat) (h : ∀ x ∈ l, p x = true) :
    (l ++ m).takeWhile p = l ++ m.takeWhile p := by
  induction l with
  | nil => rfl
  | cons x xs ih =>
    have hx : p x = true := h x (List.mem_cons_self _ _)
    simp only [List.cons_append, List.takeWhile_cons, hx, if_true]
    rw [ih (fun y hy => h y (List.mem_cons_of_mem _ hy))]

theorem takeWhile_append_stop {p : Nat → Bool} (l m : List Nat)
    (h : ∃ x ∈ l, p x = false) : (l ++ m).takeWhile p = l.takeWhile p := by
  induction l with
  | nil =>
    obtain ⟨x, hx, _⟩ := h
    exact absurd hx (List.not_mem_nil _)
  | cons y ys ih =>
    simp only [List.cons_append, List.takeWhile_cons]
    cases hy : p y with
    | false => rfl
    | true =>
      simp only [if_true]
      obtain ⟨x, hx, hpx⟩ := h
      rcases List.mem_cons.mp hx with rfl | hx1
      · rw [hy] at hpx
        exact absurd hpx (by simp)
      · rw [ih ⟨x, hx1, hpx⟩]

theorem takeWhile_length_lt {p : Nat → Bool} (l : List Nat) (h : ∃ x ∈ l, p x = false) :
    (l.takeWhile p).length < l.length := by
  induction l with
  | nil =>
    obtain ⟨x, hx, _⟩ := h
    exact absurd hx (List.not_mem_nil _)
  | cons y ys ih =>
    simp only [List.takeWhile_cons]
    cases hy : p y with
    | false => simp
    | true =>
      simp only [if_true, List.length_cons]
      obtain ⟨x, hx, hpx⟩ := h
      rcases List.mem_cons.mp hx with rfl | hx1
      · rw [hy] at hpx
        exact absurd hpx (by simp)
      · have := ih ⟨x, hx1, hpx⟩
        omega

theorem sys_read_length (buffer : List Nat) (r : ReadResult)
    (h : buffer.length = BUFFER_SIZE) : (sys_read buffer BUFFER_SIZE r).length = BUFFER_SIZE := by
  have hk := stored_length_le r BUFFER_SIZE
  simp only [sys_read, List.length_append, List.length_drop, h]
  omega

theorem sys_read_drop (buffer : List Nat) (r : ReadResult) (n : Nat)
    (h : (r.stored BUFFER_SIZE).length ≤ n) :
    (sys_read buffer BUFFER_SIZE r).drop n = buffer.drop n := by
  simp only [sys_read, List.drop_append_eq_append_drop, List.drop_drop]
  rw [List.drop_eq_nil_of_le h, List.nil_append]
  congr 1
  omega

theorem stored_length_of_ret (r : ReadResult) (count n : Nat) (h : r.ret count ≤ (n : Int)) :
    (r.stored count).length ≤ n := by
  cases r with
  | error => simp [ReadResult.stored]
  | data bs =>
    simp only [ReadResult.ret] at h
    simp only [ReadResult.stored]
    exact_mod_cast h

theorem init_buffer_drop (n : Nat) :
    LoopState.init.buffer.drop n = List.replicate (BUFFER_SIZE - n) 0 := by
  simp [LoopState.init]

theorem cstring_append_nul (l m : List Nat) : cstring (l ++ 0 :: m) = cstring l := by
  unfold cstring
  induction l with
  | nil => rfl
  | cons x xs ih =>
    simp only [List.cons_append, List.takeWhile_cons]
    split_ifs
    · rw [ih]
    · rfl

theorem cstring_of_no_nul (l : List Nat) (h : 0 ∉ l) : cstring l = l := by
  unfold cstring
  rw [List.takeWhile_eq_self_iff]
  intro x hx
  have : x ≠ 0 := fun h0 => h (h0 ▸ hx)
  simpa using this

/-- A `read` that fills the buffer with 1024 bytes none of which is NUL leaves no NUL in the
buffer: the log then prints the whole buffer and goes on into the memory after it. -/
theorem full_read_overreads (buffer bs beyond : List Nat) (hl : bs.length = BUFFER_SIZE)
    (hz : 0 ∉ bs) :
    sys_read buffer BUFFER_SIZE (ReadResult.data bs) = bs ++ buffer.drop BUFFER_SIZE ∧
    cstring (bs ++ beyond) = bs ++ cstring beyond := by
  have htake : bs.take BUFFER_SIZE = bs := List.take_of_length_le (le_of_eq hl)
  constructor
  · simp only [sys_read, ReadResult.stored, htake, hl]
  · unfold cstring
    exact takeWhile_append_all bs beyond (by
      intro x hx
      have : x ≠ 0 := fun h0 => hz (h0 ▸ hx)
      simpa using this)

theorem buffer_length_after (fd : Int) (conns : List ConnEnv) (st st1 : LoopState)
    (hst : loopStateAfter fd st conns = some st1)
    (h : st.buffer.length = BUFFER_SIZE) : st1.buffer.length = BUFFER_SIZE := by
  induction conns generalizing st with
  | nil =>
    simp only [loopStateAfter, Option.some.injEq] at hst
    subst hst
    exact h
  | cons c cs ih =>
    cases hi : (iteration fd st c).2 with
    | none => rw [loopStateAfter_cons_killed fd st c cs hi] at hst; exact absurd hst (by simp)
    | some st2 =>
      rw [loopStateAfter_cons_alive fd st st2 c cs hi] at hst
      refine ih st2 hst ?_
      rcases iteration_state fd st st2 c hi with ⟨_, hb⟩ | ⟨_, hb⟩
      · rw [hb]; exact h
      · rw [hb]; exact sys_read_length _ _ h

/-- The part of the buffer from index `n` on is untouched by turns whose reads return at most
`n` bytes. -/
theorem buffer_drop_after (fd : Int) (n : Nat) (conns : List ConnEnv) (st st1 : LoopState)
    (hst : loopStateAfter fd st conns = some st1)
    (h : ∀ p ∈ conns, 0 ≤ p.accept_ret → p.read_result.ret BUFFER_SIZE ≤ (n : Int)) :
    st1.buffer.drop n = st.buffer.drop n := by
  induction conns generalizing st with
  | nil =>
    simp only [loopStateAfter, Option.some.injEq] at hst
    subst hst
    rfl
  | cons c cs ih =>
    cases hi : (iteration fd st c).2 with
    | none => rw [loopStateAfter_cons_killed fd st c cs hi] at hst; exact absurd hst (by simp)
    | some st2 =>
      rw [loopStateAfter_cons_alive fd st st2 c cs hi] at hst
      rw [ih st2 hst (fun p hp => h p (List.mem_cons_of_mem _ hp))]
      rcases iteration_state fd st st2 c hi with ⟨_, hb⟩ | ⟨hc, hb⟩
      · rw [hb]
      · rw [hb]
        exact sys_read_drop _ _ n
          (stored_length_of_ret _ _ _ (h c (List.mem_cons_self _ _) hc))

theorem reached_of_not_fatal (l : List ConnEnv) (h : ∀ p ∈ l, p.fatal = false) :
    reached l = l := by
  induction l with
  | nil => rfl
  | cons c cs ih =>
    have hc := h c (List.mem_cons_self _ _)
    simp only [reached, hc]
    rw [if_neg (by simp), ih (fun p hp => h p (List.mem_cons_of_mem _ hp))]

/-- The turn of an accepted connection up to its `write`, and what follows the `write`: the
`close` and the rest of the loop when it returns, nothing when it raises `SIGPIPE`. -/
theorem serve_at (fd : Int) (st st0 : LoopState) (pre : List ConnEnv) (c : ConnEnv)
    (post : List ConnEnv)
    (hpre : loopStateAfter fd st pre = some st0) (hc : 0 ≤ c.accept_ret) :
    ∃ tail,
      (serve fd st (pre ++ c :: post)).trace =
        (serve fd st pre).trace ++
          [Event.accept fd st0.addrlen c.accept_ret,
           Event.read c.accept_ret BUFFER_SIZE (c.read_result.ret BUFFER_SIZE),
           Event.printf (request_dump (sys_read st0.buffer BUFFER_SIZE c.read_result) c.beyond),
           Event.write c.accept_ret response_literal 75 c.write_result] ++ tail ∧
      (∀ r, c.write_result = WriteResult.returned r →
        tail = Event.close c.accept_ret c.close_ret ::
            (serve fd
              { buffer := sys_read st0.buffer BUFFER_SIZE c.read_result,
                addrlen := c.accept_addrlen } post).trace ∧
        (serve fd st (pre ++ c :: post)).status =
          (serve fd
            { buffer := sys_read st0.buffer BUFFER_SIZE c.read_result,
              addrlen := c.accept_addrlen } post).status) ∧
      (c.write_result = WriteResult.sigpipe →
        tail = [] ∧ (serve fd st (pre ++ c :: post)).status = Status.killed SIGPIPE) := by
  cases hw : c.write_result with
  | returned r =>
    have h := serve_at_returned fd st st0 pre c post r hpre hc hw
    refine ⟨Event.close c.accept_ret c.close_ret ::
      (serve fd
        { buffer := sys_read st0.buffer BUFFER_SIZE c.read_result,
          addrlen := c.accept_addrlen } post).trace, ?_, ?_, ?_⟩
    · rw [h.1]
      simp
    · intro r1 _
      exact ⟨rfl, h.2⟩
    · intro hne
      exact absurd hne (by simp)
  | sigpipe =>
    have h := serve_at_sigpipe fd st st0 pre c post hpre hc hw
    refine ⟨[], ?_, ?_, ?_⟩
    · rw [h.1]
      simp
    · intro r1 hne
      exact absurd hne (by simp)
    · intro _
      exact ⟨rfl, h.2⟩

/-! ## The claims -/

/-- C1: every `write` of every run hands over exactly the 75 bytes of the fixed response with
length 75, and while the process runs the `write` calls are, in order, one per accepted
connection on that connection's descriptor - whatever the reads delivered (the connection
attempts are arbitrary) and whatever earlier connections sent.  After a successful setup this
holds of all connections the process lives to accept, the one whose `write` ends it included.
The 75 bytes are the literal of the specification and hold no CR byte. -/
theorem C1_fixed_response (e : SetupEnv) (conns : List ConnEnv) :
    (∀ fd buf count res, Event.write fd buf count res ∈ (main e conns).trace →
      buf = response_literal ∧ count = 75) ∧
    ((main e conns).status = Status.running →
      writes (main e conns).trace
        = (accepted conns).map fun c => (c.accept_ret, response_literal, 75)) ∧
    ((main e []).status = Status.running →
      writes (main e conns).trace
        = (accepted (reached conns)).map fun c => (c.accept_ret, response_literal, 75)) ∧
    response_literal
      = bytes "HTTP/1.1 200 OK\nContent-Type: text/plain\nContent-Length: 14\n\nHello, world!\n" ∧
    response_literal.length = 75 ∧ 13 ∉ response_literal := by
  refine ⟨?_, writes_main_running e conns, writes_main e conns, by decide, by decide, by decide⟩
  intro fd buf count res hmem
  have hw := mem_writes hmem
  by_cases h : (main e []).status = Status.running
  · rw [writes_main e conns h, List.mem_map] at hw
    obtain ⟨c, _, hc⟩ := hw
    simp only [Prod.mk.injEq] at hc
    exact ⟨hc.2.1.symm, hc.2.2.symm⟩
  · rw [main_exited e conns h, writes_setup] at hw
    exact absurd hw (List.not_mem_nil _)

/-- Witness of C1: after a 5-byte request, a failed `accept`, a failed `read` and an empty
`read`, the three accepted connections each get the fixed response. -/
theorem C1_fixed_response_witness :
    (main env_ok [conn 4 [65, 66, 67, 68, 69], conn_failed,
        { conn 5 [] with read_result := ReadResult.error }, conn 6 []]).status
      = Status.running ∧
    writes (main env_ok [conn 4 [65, 66, 67, 68, 69], conn_failed,
        { conn 5 [] with read_result := ReadResult.error }, conn 6 []]).trace
      = [(4, response_literal, 75), (5, response_literal, 75), (6, response_literal, 75)] :=
  ⟨by decide, (C1_fixed_response env_ok _).2.1 (by decide)⟩

/-- C2 (defect of line 20): when `socket` returns `-1` the program does not take the
socket-failure branch: it goes on to `setsockopt` on descriptor `-1` and reports that call's
error instead; and the branch is taken when `socket` succeeds with descriptor `0`. -/
theorem C2_socket_error_check :
    main env_socket_error [] =
      { trace := [Event.socket Domain.AF_INET6 SockType.SOCK_STREAM 0 (-1),
                  Event.setsockopt (-1) Level.SOL_SOCKET OptName.SO_REUSEADDR 1 4 (-1),
                  Event.perror "setsockopt SO_REUSEADDR failed",
                  Event.close (-1) (-1)],
        status := Status.exited 1 } ∧
    main env_descriptor_zero [] =
      { trace := [Event.socket Domain.AF_INET6 SockType.SOCK_STREAM 0 0,
                  Event.perror "socket failed"],
        status := Status.exited 1 } := by
  decide

/-- C3: when a setup call after socket creation fails - the first `setsockopt`, the second
`setsockopt`, `bind` or `listen`, the earlier ones having succeeded - the run performs the setup
steps up to that call and no later one, then prints that step's error, closes the listening
descriptor (the only `close` of the run) and exits with status 1; it prints no banner line and
calls `accept` never. -/
theorem C3_setup_failure_aborts (e : SetupEnv) (conns : List ConnEnv)
    (h0 : e.socket_ret ≠ 0) :
    (e.reuseaddr_ret ≠ 0 →
      AbortsAfter [SetupStep.socket, SetupStep.reuseaddr]
        "setsockopt SO_REUSEADDR failed" e.socket_ret (main e conns)) ∧
    (e.reuseaddr_ret = 0 → e.v6only_ret ≠ 0 →
      AbortsAfter [SetupStep.socket, SetupStep.reuseaddr, SetupStep.v6only]
        "setsockopt IPV6_V6ONLY failed" e.socket_ret (main e conns)) ∧
    (e.reuseaddr_ret = 0 → e.v6only_ret = 0 → e.bind_ret < 0 →
      AbortsAfter [SetupStep.socket, SetupStep.reuseaddr, SetupStep.v6only, SetupStep.readback,
          SetupStep.bind]
        "bind failed" e.socket_ret (main e conns)) ∧
    (e.reuseaddr_ret = 0 → e.v6only_ret = 0 → 0 ≤ e.bind_ret → e.listen_ret < 0 →
      AbortsAfter [SetupStep.socket, SetupStep.reuseaddr, SetupStep.v6only, SetupStep.readback,
          SetupStep.bind, SetupStep.listen]
        "listen failed" e.socket_ret (main e conns)) := by
  refine ⟨?_, ?_, ?_, ?_⟩
  · intro h1
    rw [main_reuseaddr_fails e conns h0 h1]
    have hq := abort_quiet e
      [Event.socket Domain.AF_INET6 SockType.SOCK_STREAM 0 e.socket_ret,
        Event.setsockopt e.socket_ret Level.SOL_SOCKET OptName.SO_REUSEADDR 1 sizeof_int
          e.reuseaddr_ret]
      (by intro ev hev; simp [setup_calls, setup_options] at hev ⊢; tauto)
      "setsockopt SO_REUSEADDR failed" e.socket_ret e.close_ret
    exact ⟨rfl, ⟨_, _, rfl⟩, rfl, rfl, hq.1, hq.2⟩
  · intro h1 h2
    rw [main_v6only_fails e conns h0 h1 h2]
    have hq := abort_quiet e (setup_options e)
      (by intro ev hev; simp only [setup_calls, List.mem_append]; tauto)
      "setsockopt IPV6_V6ONLY failed" e.socket_ret e.close_ret
    refine ⟨?_, ⟨_, _, rfl⟩, ?_, rfl, hq.1, hq.2⟩
    · show setupSteps (_ ++ _) = _
      rw [setupSteps_append, setupSteps_setup_options]
      rfl
    · show closes (_ ++ _) = _
      rw [closes_append, closes_setup_options]
      rfl
  · intro h1 h2 h3
    rw [main_bind_fails e conns h0 h1 h2 h3]
    have hq := abort_quiet e (setup_options e ++ setup_bind e)
      (by intro ev hev; simp only [setup_calls, List.mem_append] at hev ⊢; tauto)
      "bind failed" e.socket_ret e.close_ret
    refine ⟨?_, ⟨_, _, rfl⟩, ?_, rfl, hq.1, hq.2⟩
    · show setupSteps (_ ++ _) = _
      rw [setupSteps_append, setupSteps_append, setupSteps_setup_options, setupSteps_setup_bind]
      rfl
    · show closes (_ ++ _) = _
      rw [closes_append, closes_append, closes_setup_options, closes_setup_bind]
      rfl
  · intro h1 h2 h3 h4
    rw [main_listen_fails e conns h0 h1 h2 h3 h4]
    have hq := abort_quiet e
      (setup_options e ++ setup_bind e ++ [Event.listen e.socket_ret 3 e.listen_ret])
      (fun _ h => h) "listen failed" e.socket_ret e.close_ret
    refine ⟨?_, ⟨_, _, rfl⟩, ?_, rfl, hq.1, hq.2⟩
    · show setupSteps (_ ++ _) = _
      rw [setupSteps_append, setupSteps_append, setupSteps_append, setupSteps_setup_options,
        setupSteps_setup_bind]
      rfl
    · show closes (_ ++ _) = _
      rw [closes_append, closes_append, closes_append, closes_setup_options, closes_setup_bind]
      rfl

/-- Witness of C3: the four failures, each at its own setup answers. -/
theorem C3_setup_failure_aborts_witness :
    AbortsAfter [SetupStep.socket, SetupStep.reuseaddr]
      "setsockopt SO_REUSEADDR failed" 3 (main { env_ok with reuseaddr_ret := -1 } [conn 4 []]) ∧
    AbortsAfter [SetupStep.socket, SetupStep.reuseaddr, SetupStep.v6only]
      "setsockopt IPV6_V6ONLY failed" 3 (main { env_ok with v6only_ret := -1 } [conn 4 []]) ∧
    AbortsAfter [SetupStep.socket, SetupStep.reuseaddr, SetupStep.v6only, SetupStep.readback,
        SetupStep.bind]
      "bind failed" 3 (main { env_ok with bind_ret := -1 } [conn 4 []]) ∧
    AbortsAfter [SetupStep.socket, SetupStep.reuseaddr, SetupStep.v6only, SetupStep.readback,
        SetupStep.bind, SetupStep.listen]
      "listen failed" 3 (main { env_ok with listen_ret := -1 } [conn 4 []]) :=
  ⟨(C3_setup_failure_aborts { env_ok with reuseaddr_ret := -1 } [conn 4 []] (by decide)).1
      (by decide),
   (C3_setup_failure_aborts { env_ok with v6only_ret := -1 } [conn 4 []] (by decide)).2.1
      (by decide) (by decide),
   (C3_setup_failure_aborts { env_ok with bind_ret := -1 } [conn 4 []] (by decide)).2.2.1
      (by decide) (by decide) (by decide),
   (C3_setup_failure_aborts { env_ok with listen_ret := -1 } [conn 4 []] (by decide)).2.2.2
      (by decide) (by decide) (by decide) (by decide)⟩

/-- C4 (same defect of line 20): when every setup call succeeds and `socket` returns
descriptor 0, the run performs no setup step after `socket`: it reports a socket failure and
exits with status 1 before any `setsockopt`, `bind`, `listen` or `accept`. -/
theorem C4_descriptor_zero_stops_setup (conns : List ConnEnv) :
    setupSteps (main env_descriptor_zero conns).trace = [SetupStep.socket] ∧
    syscalls (main env_descriptor_zero conns).trace
      = [Event.socket Domain.AF_INET6 SockType.SOCK_STREAM 0 0] ∧
    (main env_descriptor_zero conns).status = Status.exited 1 := by
  have h : main env_descriptor_zero conns = main env_descriptor_zero [] :=
    main_exited env_descriptor_zero conns (by decide)
  rw [h]
  decide

/-- C5, as stated, fails in its last part: after a failed `accept`, a connection is accepted as
descriptor 4, its peer resets it, and the `write` raises `SIGPIPE`; the run has `accept`, `read`
and `write` on descriptor 4 but no `close`, and the process is ended by signal 13. -/
theorem C5_accept_failure_counterexample :
    (main env_ok [conn_failed, conn_reset 4]).trace =
      (main env_ok []).trace ++
        [Event.accept 3 28 (-1),
         Event.perror "accept failed",
         Event.accept 3 28 4,
         Event.read 4 1024 (-1),
         Event.printf (bytes "Request received:\n---\n\n---\n"),
         Event.write 4 response_literal 75 WriteResult.sigpipe] ∧
    closes (main env_ok [conn_failed, conn_reset 4]).trace = [] ∧
    (main env_ok [conn_failed, conn_reset 4]).status = Status.killed 13 := by
  decide

/-- C5, amended: after a successful setup and any connection attempts `pre` the process lives
through, a run of failed `accept` calls - wherever in the loop it occurs - leaves the process
running and the buffer untouched; its trace consists only of `accept` calls on the listening
descriptor, each followed by the log line `accept failed` (two events per failure, so no `read`,
`write` or `close`, and the next system call is again `accept`).  A successful `accept` that
follows is served with `accept`, `read`, the request dump and the `write` of the fixed response;
when that `write` returns, the `close` and the rest of the loop follow, and when it raises
`SIGPIPE` the process ends there. -/
theorem C5_accept_failure_resilience (e : SetupEnv) (pre fails : List ConnEnv) (c : ConnEnv)
    (rest : List ConnEnv)
    (hs : (main e []).status = Status.running)
    (hpre : ∀ p ∈ pre, p.fatal = false)
    (hf : ∀ f ∈ fails, f.accept_ret < 0)
    (hc : 0 ≤ c.accept_ret) :
    (main e (pre ++ fails)).status = Status.running ∧
    ∃ failed st0 st tail,
      loopStateAfter e.socket_ret LoopState.init pre = some st0 ∧
      loopStateAfter e.socket_ret LoopState.init (pre ++ fails) = some st ∧
      st.buffer = st0.buffer ∧
      (main e (pre ++ fails)).trace = (main e pre).trace ++ failed ∧
      failedAcceptsOnly e.socket_ret failed = true ∧
      failed.length = 2 * fails.length ∧
      acceptReturns failed = fails.map (fun f => f.accept_ret) ∧
      (main e (pre ++ fails ++ c :: rest)).trace =
        (main e (pre ++ fails)).trace ++
          [Event.accept e.socket_ret st.addrlen c.accept_ret,
           Event.read c.accept_ret 1024 (c.read_result.ret 1024),
           Event.printf (request_dump (sys_read st.buffer 1024 c.read_result) c.beyond),
           Event.write c.accept_ret response_literal 75 c.write_result] ++ tail ∧
      (∀ r, c.write_result = WriteResult.returned r →
        tail = Event.close c.accept_ret c.close_ret ::
            (serve e.socket_ret
              { buffer := sys_read st.buffer 1024 c.read_result,
                addrlen := c.accept_addrlen } rest).trace ∧
        (main e (pre ++ fails ++ c :: rest)).status =
          (serve e.socket_ret
            { buffer := sys_read st.buffer 1024 c.read_result,
              addrlen := c.accept_addrlen } rest).status) ∧
      (c.write_result = WriteResult.sigpipe →
        tail = [] ∧ (main e (pre ++ fails ++ c :: rest)).status = Status.killed SIGPIPE) := by
  obtain ⟨st0, hst0⟩ := loopStateAfter_of_not_fatal e.socket_ret pre LoopState.init hpre
  obtain ⟨hfa, hlen, st, hst, hbuf⟩ := serve_failed e.socket_ret fails st0 hf
  have hfatal : ∀ f ∈ fails, f.fatal = false := fun f hm => fatal_of_failed f (hf f hm)
  have hall : loopStateAfter e.socket_ret LoopState.init (pre ++ fails) = some st := by
    have : ∀ (a : List ConnEnv) (s0 s1 : LoopState),
        loopStateAfter e.socket_ret s0 a = some s1 →
        loopStateAfter e.socket_ret s0 (a ++ fails) = loopStateAfter e.socket_ret s1 fails := by
      intro a
      induction a with
      | nil =>
        intro s0 s1 h0
        simp only [loopStateAfter, Option.some.injEq] at h0
        subst h0
        rfl
      | cons x xs ih =>
        intro s0 s1 h0
        cases hi : (iteration e.socket_ret s0 x).2 with
        | none =>
          rw [loopStateAfter_cons_killed _ s0 x xs hi] at h0
          exact absurd h0 (by simp)
        | some s2 =>
          rw [loopStateAfter_cons_alive _ s0 s2 x xs hi] at h0
          rw [List.cons_append, loopStateAfter_cons_alive _ s0 s2 x _ hi]
          exact ih s2 s1 h0
    rw [this pre LoopState.init st0 hst0, hst]
  have happ := serve_append e.socket_ret pre fails LoopState.init st0 hst0
  have hcalls := (serve_calls e.socket_ret st0 fails).1
  rw [reached_of_not_fatal fails hfatal] at hcalls
  have hrun1 := main_running e (pre ++ fails) hs
  have hrun0 := main_running e pre hs
  have hrun2 := main_running e (pre ++ fails ++ c :: rest) hs
  obtain ⟨tail, ht, hret, hsig⟩ :=
    serve_at e.socket_ret LoopState.init st (pre ++ fails) c rest hall hc
  refine ⟨?_, (serve e.socket_ret st0 fails).trace, st0, st, tail, hst0, hall, hbuf, ?_, hfa,
    hlen, hcalls, ?_, ?_, ?_⟩
  · rw [hrun1.2]
    exact serve_status_alive e.socket_ret (pre ++ fails) LoopState.init st hall
  · rw [hrun1.1, hrun0.1, happ.1, List.append_assoc]
  · rw [hrun2.1, hrun1.1, ht]
    simp only [List.append_assoc, BUFFER_SIZE]
  · intro r hw
    obtain ⟨h1, h2⟩ := hret r hw
    exact ⟨h1, by rw [hrun2.2, h2]; rfl⟩
  · intro hw
    obtain ⟨h1, h2⟩ := hsig hw
    exact ⟨h1, by rw [hrun2.2, h2]⟩

/-- Witness of C5 amended: a served connection, then two failed `accept` calls, then a
connection accepted as descriptor 5. -/
theorem C5_accept_failure_resilience_witness :
    (main env_ok ([conn 4 [71]] ++ [conn_failed, conn_failed])).status = Status.running ∧
    ∃ failed st0 st tail,
      loopStateAfter env_ok.socket_ret LoopState.init [conn 4 [71]] = some st0 ∧
      loopStateAfter env_ok.socket_ret LoopState.init
        ([conn 4 [71]] ++ [conn_failed, conn_failed]) = some st ∧
      st.buffer = st0.buffer ∧
      (main env_ok ([conn 4 [71]] ++ [conn_failed, conn_failed])).trace
        = (main env_ok [conn 4 [71]]).trace ++ failed ∧
      failedAcceptsOnly env_ok.socket_ret failed = true ∧
      failed.length = 2 * [conn_failed, conn_failed].length ∧
      acceptReturns failed = [conn_failed, conn_failed].map (fun f => f.accept_ret) ∧
      (main env_ok ([conn 4 [71]] ++ [conn_failed, conn_failed] ++ conn 5 [72] :: [])).trace =
        (main env_ok ([conn 4 [71]] ++ [conn_failed, conn_failed])).trace ++
          [Event.accept env_ok.socket_ret st.addrlen (conn 5 [72]).accept_ret,
           Event.read (conn 5 [72]).accept_ret 1024 ((conn 5 [72]).read_result.ret 1024),
           Event.printf (request_dump
             (sys_read st.buffer 1024 (conn 5 [72]).read_result) (conn 5 [72]).beyond),
           Event.write (conn 5 [72]).accept_ret response_literal 75
             (conn 5 [72]).write_result] ++ tail ∧
      (∀ r, (conn 5 [72]).write_result = WriteResult.returned r →
        tail = Event.close (conn 5 [72]).accept_ret (conn 5 [72]).close_ret ::
            (serve env_ok.socket_ret
              { buffer := sys_read st.buffer 1024 (conn 5 [72]).read_result,
                addrlen := (conn 5 [72]).accept_addrlen } []).trace ∧
        (main env_ok ([conn 4 [71]] ++ [conn_failed, conn_failed] ++ conn 5 [72] :: [])).status =
          (serve env_ok.socket_ret
            { buffer := sys_read st.buffer 1024 (conn 5 [72]).read_result,
              addrlen := (conn 5 [72]).accept_addrlen } []).status) ∧
      ((conn 5 [72]).write_result = WriteResult.sigpipe →
        tail = [] ∧
        (main env_ok ([conn 4 [71]] ++ [conn_failed, conn_failed] ++ conn 5 [72] :: [])).status
          = Status.killed SIGPIPE) :=
  C5_accept_failure_resilience env_ok [conn 4 [71]] [conn_failed, conn_failed] (conn 5 [72]) []
    (by decide) (by decide) (by decide) (by decide)

/-- C6, as stated, fails: a connection accepted as descriptor 4 is reset by its peer, the
`write` raises `SIGPIPE`, and the run has `accept`, `read` and `write` on descriptor 4 but no
`close` and no further `accept`, although another connection is waiting. -/
theorem C6_sequential_service_counterexample :
    syscalls (serve 3 LoopState.init [conn_reset 4, conn 5 []]).trace =
      [Event.accept 3 28 4,
       Event.read 4 1024 (-1),
       Event.write 4 response_literal 75 WriteResult.sigpipe] ∧
    closes (serve 3 LoopState.init [conn_reset 4, conn 5 []]).trace = [] ∧
    (serve 3 LoopState.init [conn_reset 4, conn 5 []]).status = Status.killed SIGPIPE := by
  decide

/-- C6, amended: along any connection attempts, with any values returned by `read`, `write` and
`close`, the system calls of the serve loop follow the serving discipline: `accept` on the
listening descriptor; after each successful `accept` exactly one `read` of at most 1024 bytes,
then one `write`, then - when the `write` returns - one `close`, all on the accepted descriptor,
before the next `accept`; a `write` that raises `SIGPIPE` ends the process there.  The loop
calls `accept` once for every attempt the process lives to make, `read` and `write` once for
every one of them that is accepted, and `close` once for every one whose `write` returned.
After every initial part of the trace at most one accepted connection is open. -/
theorem C6_sequential_service (fd : Int) (st : LoopState) (conns : List ConnEnv) :
    follows fd Phase.idle (syscalls (serve fd st conns).trace) = some (endPhase conns) ∧
    acceptReturns (serve fd st conns).trace = (reached conns).map (fun c => c.accept_ret) ∧
    reads (serve fd st conns).trace
      = (accepted (reached conns)).map (fun c => (c.accept_ret, 1024)) ∧
    writes (serve fd st conns).trace
      = (accepted (reached conns)).map (fun c => (c.accept_ret, response_literal, 75)) ∧
    closes (serve fd st conns).trace = (served (reached conns)).map (fun c => c.accept_ret) ∧
    (serve fd st conns).status
      = (if conns.any ConnEnv.fatal then Status.killed SIGPIPE else Status.running) ∧
    (∀ p s, p ++ s = (serve fd st conns).trace → (openAfter [] p).length ≤ 1) ∧
    (∀ e, (main e []).status = Status.running →
      (main e conns).trace
        = (main e []).trace ++ (serve e.socket_ret LoopState.init conns).trace ∧
      (main e conns).status = (serve e.socket_ret LoopState.init conns).status ∧
      ∀ ev ∈ (main e []).trace, ev.isAccept = false) := by
  have hcalls := serve_calls fd st conns
  refine ⟨follows_serve fd st conns, hcalls.1, hcalls.2.1, writes_serve fd st conns,
    hcalls.2.2, serve_status_eq fd st conns, open_at_most_one fd st conns, ?_⟩
  intro e h
  exact ⟨(main_running e conns h).1, (main_running e conns h).2, setup_no_accept e⟩

/-- Witness of C6 amended: two served connections with a failed `accept` between them; after
the first connection's `write` one connection is open. -/
theorem C6_sequential_service_witness :
    follows 3 Phase.idle
      (syscalls (serve 3 LoopState.init [conn 4 [71], conn_failed, conn 4 []]).trace)
        = some Phase.idle ∧
    closes (serve 3 LoopState.init [conn 4 [71], conn_failed, conn 4 []]).trace = [4, 4] ∧
    (openAfter []
      ((serve 3 LoopState.init [conn 4 [71], conn_failed, conn 4 []]).trace.take 4)).length
      ≤ 1 :=
  ⟨(C6_sequential_service 3 LoopState.init [conn 4 [71], conn_failed, conn 4 []]).1,
   (C6_sequential_service 3 LoopState.init [conn 4 [71], conn_failed, conn 4 []]).2.2.2.2.1,
   (C6_sequential_service 3 LoopState.init [conn 4 [71], conn_failed, conn 4 []]).2.2.2.2.2.2.1
     _ _ (List.take_append_drop 4 _)⟩

/-- C7, as stated, fails: after a 5-byte request `ABCDE`, a 2-byte request `xy` is logged as
`xyCDE` (the buffer is not cleared between connections), and a request holding a NUL byte is
logged only up to that byte (`%s`). -/
theorem C7_request_dump_counterexample :
    printed (serve 3 LoopState.init [conn 4 (bytes "ABCDE"), conn 5 (bytes "xy")]).trace
      = [bytes "Request received:\n---\n" ++ bytes "ABCDE" ++ bytes "\n---\n",
         bytes "Request received:\n---\n" ++ bytes "xyCDE" ++ bytes "\n---\n"] ∧
    printed (serve 3 LoopState.init [conn 4 (bytes "ABCDE"), conn 5 (bytes "xy")]).trace
      ≠ [bytes "Request received:\n---\n" ++ bytes "ABCDE" ++ bytes "\n---\n",
         bytes "Request received:\n---\n" ++ bytes "xy" ++ bytes "\n---\n"] ∧
    printed (serve 3 LoopState.init [conn 4 [71, 0, 72]]).trace
      = [bytes "Request received:\n---\n" ++ [71] ++ bytes "\n---\n"] ∧
    printed (serve 3 LoopState.init [conn 4 [71, 0, 72]]).trace
      ≠ [bytes "Request received:\n---\n" ++ [71, 0, 72] ++ bytes "\n---\n"] := by
  decide

/-- C7, amended: when the `read` of an accepted connection - one the process lives to accept -
returns `n < 1024` bytes and no earlier `read` of the run returned more than `n` bytes, the
request dump of that connection is the header, those `n` bytes up to their first NUL byte, and
the footer; so it is exactly the `n` bytes when none of them is NUL.  The dump is followed by
the `write`, and by the `close` and the rest of the loop when the `write` returns. -/
theorem C7_request_dump_exact (fd : Int) (pre : List ConnEnv) (c : ConnEnv)
    (post : List ConnEnv) (bs : List Nat)
    (hlive : ∀ p ∈ pre, p.fatal = false)
    (hc : 0 ≤ c.accept_ret)
    (hr : c.read_result = ReadResult.data bs)
    (hn : bs.length < 1024)
    (hpre : ∀ p ∈ pre, 0 ≤ p.accept_ret → p.read_result.ret BUFFER_SIZE ≤ (bs.length : Int)) :
    (∃ st0 tail,
      loopStateAfter fd LoopState.init pre = some st0 ∧
      (serve fd LoopState.init (pre ++ c :: post)).trace =
        (serve fd LoopState.init pre).trace ++
          [Event.accept fd st0.addrlen c.accept_ret,
           Event.read c.accept_ret 1024 (bs.length : Int),
           Event.printf (bytes "Request received:\n---\n" ++ cstring bs ++ bytes "\n---\n"),
           Event.write c.accept_ret response_literal 75 c.write_result] ++ tail ∧
      (∀ r, c.write_result = WriteResult.returned r →
        ∃ st1, tail = Event.close c.accept_ret c.close_ret :: (serve fd st1 post).trace) ∧
      (c.write_result = WriteResult.sigpipe → tail = [])) ∧
    (0 ∉ bs → cstring bs = bs) := by
  obtain ⟨st0, hst0⟩ := loopStateAfter_of_not_fatal fd pre LoopState.init hlive
  have htake : bs.take BUFFER_SIZE = bs := List.take_of_length_le (by simp [BUFFER_SIZE]; omega)
  have hdrop := buffer_drop_after fd bs.length pre LoopState.init st0 hst0 hpre
  rw [init_buffer_drop] at hdrop
  have hbuf : sys_read st0.buffer BUFFER_SIZE c.read_result
      = bs ++ List.replicate (BUFFER_SIZE - bs.length) 0 := by
    rw [hr]
    simp only [sys_read, ReadResult.stored, htake, hdrop]
  have hrep : List.replicate (BUFFER_SIZE - bs.length) 0
      = 0 :: List.replicate (BUFFER_SIZE - bs.length - 1) 0 := by
    have : BUFFER_SIZE - bs.length = (BUFFER_SIZE - bs.length - 1) + 1 := by
      simp only [BUFFER_SIZE]; omega
    rw [this, List.replicate_succ]
    simp
  have hdump : request_dump (bs ++ List.replicate (BUFFER_SIZE - bs.length) 0) c.beyond
      = bytes "Request received:\n---\n" ++ cstring bs ++ bytes "\n---\n" := by
    unfold request_dump
    rw [List.append_assoc bs, hrep, List.cons_append, cstring_append_nul]
  have hret : c.read_result.ret BUFFER_SIZE = (bs.length : Int) := by
    rw [hr]
    simp only [ReadResult.ret, htake]
  obtain ⟨tail, ht, hret1, hsig⟩ := serve_at fd LoopState.init st0 pre c post hst0 hc
  rw [hbuf, hdump, hret] at ht
  refine ⟨⟨st0, tail, hst0, ht, ?_, fun h => (hsig h).1⟩, cstring_of_no_nul bs⟩
  intro r hw
  exact ⟨_, (hret1 r hw).1⟩

/-- Witness of C7 amended: a 5-byte request after a 2-byte request. -/
theorem C7_request_dump_exact_witness :
    (∃ st0 tail,
      loopStateAfter 3 LoopState.init [conn 4 (bytes "xy")] = some st0 ∧
      (serve 3 LoopState.init ([conn 4 (bytes "xy")] ++ conn 5 (bytes "ABCDE") :: [])).trace =
        (serve 3 LoopState.init [conn 4 (bytes "xy")]).trace ++
          [Event.accept 3 st0.addrlen (conn 5 (bytes "ABCDE")).accept_ret,
           Event.read (conn 5 (bytes "ABCDE")).accept_ret 1024 ((bytes "ABCDE").length : Int),
           Event.printf
             (bytes "Request received:\n---\n" ++ cstring (bytes "ABCDE") ++ bytes "\n---\n"),
           Event.write (conn 5 (bytes "ABCDE")).accept_ret response_literal 75
             (conn 5 (bytes "ABCDE")).write_result] ++ tail ∧
      (∀ r, (conn 5 (bytes "ABCDE")).write_result = WriteResult.returned r →
        ∃ st1, tail = Event.close (conn 5 (bytes "ABCDE")).accept_ret
          (conn 5 (bytes "ABCDE")).close_ret :: (serve 3 st1 []).trace) ∧
      ((conn 5 (bytes "ABCDE")).write_result = WriteResult.sigpipe → tail = [])) ∧
    (0 ∉ bytes "ABCDE" → cstring (bytes "ABCDE") = bytes "ABCDE") :=
  C7_request_dump_exact 3 [conn 4 (bytes "xy")] (conn 5 (bytes "ABCDE")) [] (bytes "ABCDE")
    (by decide) (by decide) rfl (by decide) (by decide)

/-- C8: in the bytes handed to `write`, the `Content-Length` header declares 14 and the body,
the bytes after the first empty line, is the 14 bytes of `Hello, world!` and a line feed. -/
theorem C8_content_length_is_body_length :
    declaredContentLength (http_response.take (strlen http_response)) = some 14 ∧
    responseBody (http_response.take (strlen http_response)) = some (bytes "Hello, world!\n") ∧
    (responseBody (http_response.take (strlen http_response))).map List.length = some 14 := by
  decide

/-- C9: two runs that differ only in the outcome of the `getsockopt` call (its return value and
the value it reports) have the same exit status, and their traces are either equal (the call is
not reached) or differ exactly in the `getsockopt` event and in the one line printed for the
readback: the events before and all events after - `bind`, `listen`, the banner and the whole
serve loop - are the same.  Whether the process exits is decided by the other setup calls
alone, so a failed `getsockopt` does not abort it. -/
theorem C9_readback_not_control_flow (e : SetupEnv) (conns : List ConnEnv)
    (r1 v1 r2 v2 : Int) :
    (main (withReadback e r1 v1) conns).status = (main (withReadback e r2 v2) conns).status ∧
    ((main (withReadback e r1 v1) conns).trace = (main (withReadback e r2 v2) conns).trace ∨
     ∃ before after,
      (main (withReadback e r1 v1) conns).trace =
        before ++
          [Event.getsockopt e.socket_ret Level.IPPROTO_IPV6 OptName.IPV6_V6ONLY r1,
           readback_line (withReadback e r1 v1)] ++ after ∧
      (main (withReadback e r2 v2) conns).trace =
        before ++
          [Event.getsockopt e.socket_ret Level.IPPROTO_IPV6 OptName.IPV6_V6ONLY r2,
           readback_line (withReadback e r2 v2)] ++ after) ∧
    ((∀ code, (main (withReadback e r1 v1) conns).status ≠ Status.exited code) ↔
      e.socket_ret ≠ 0 ∧ e.reuseaddr_ret = 0 ∧ e.v6only_ret = 0 ∧
        0 ≤ e.bind_ret ∧ 0 ≤ e.listen_ret) := by
  refine ⟨?_, ?_, ?_⟩
  pick_goal 3
  · have hs := serve_status e.socket_ret conns LoopState.init
    unfold main
    simp only [withReadback]
    split_ifs
    all_goals first
      | (simp_all [EXIT_FAILURE]; done)
      | (rcases hs with h | h <;> simp_all)
  all_goals unfold main
  all_goals simp only [withReadback]
  all_goals split_ifs
  all_goals first
    | rfl
    | exact Or.inl rfl
    | exact Or.inr ⟨setup_options e, _, rfl, rfl⟩

/-- C10: as long as every `read` so far - that of the connection being logged included - has
returned at most 1023 bytes, the buffer at the log step has its 1024 bytes with a NUL at index
1023, and the string the log prints is the part of the buffer before its first NUL: at most
1023 bytes long and the same whatever lies in memory after the buffer.  So reading past the
buffer needs a `read` that returned 1024 bytes.  (The connection logged is one the process lives
to accept; its turn goes on with the `write`, and with the `close` and the rest of the loop on
that buffer when the `write` returns.) -/
theorem C10_buffer_terminated (fd : Int) (pre : List ConnEnv) (c : ConnEnv)
    (post : List ConnEnv)
    (hlive : ∀ p ∈ pre, p.fatal = false)
    (hc : 0 ≤ c.accept_ret)
    (h : ∀ p ∈ pre ++ [c], 0 ≤ p.accept_ret → p.read_result.ret BUFFER_SIZE ≤ 1023) :
    ∃ addrlen buffer tail,
      (serve fd LoopState.init (pre ++ c :: post)).trace =
        (serve fd LoopState.init pre).trace ++
          [Event.accept fd addrlen c.accept_ret,
           Event.read c.accept_ret 1024 (c.read_result.ret 1024),
           Event.printf (bytes "Request received:\n---\n" ++ cstring buffer ++ bytes "\n---\n"),
           Event.write c.accept_ret response_literal 75 c.write_result] ++ tail ∧
      (∀ r, c.write_result = WriteResult.returned r →
        tail = Event.close c.accept_ret c.close_ret ::
          (serve fd { buffer := buffer, addrlen := c.accept_addrlen } post).trace) ∧
      (c.write_result = WriteResult.sigpipe → tail = []) ∧
      buffer.length = 1024 ∧
      buffer[1023]? = some 0 ∧
      (cstring buffer).length ≤ 1023 ∧
      ∀ beyond, cstring (buffer ++ beyond) = cstring buffer := by
  obtain ⟨st0, hst0⟩ := loopStateAfter_of_not_fatal fd pre LoopState.init hlive
  have hpre : ∀ p ∈ pre, 0 ≤ p.accept_ret → p.read_result.ret BUFFER_SIZE ≤ ((1023 : Nat) : Int) :=
    fun p hp hacc => by
      have := h p (List.mem_append_left _ hp) hacc
      exact_mod_cast this
  have hcr : c.read_result.ret BUFFER_SIZE ≤ ((1023 : Nat) : Int) := by
    have := h c (List.mem_append_right _ (List.mem_singleton_self c)) hc
    exact_mod_cast this
  have hlen : (sys_read st0.buffer BUFFER_SIZE c.read_result).length = 1024 :=
    sys_read_length _ _
      (buffer_length_after fd pre LoopState.init st0 hst0 (by simp [LoopState.init]))
  have hdrop : (sys_read st0.buffer BUFFER_SIZE c.read_result).drop 1023 = [0] := by
    rw [sys_read_drop _ _ 1023 (stored_length_of_ret _ _ _ hcr),
      buffer_drop_after fd 1023 pre LoopState.init st0 hst0 hpre, init_buffer_drop]
    rfl
  have hget : (sys_read st0.buffer BUFFER_SIZE c.read_result)[1023]? = some 0 := by
    have := congrArg (fun l => l[0]?) hdrop
    simpa using this
  have hmem : ∃ x ∈ sys_read st0.buffer BUFFER_SIZE c.read_result, (x != 0) = false :=
    ⟨0, List.mem_of_mem_drop (hdrop ▸ List.mem_singleton_self 0), rfl⟩
  have happ : ∀ beyond,
      cstring (sys_read st0.buffer BUFFER_SIZE c.read_result ++ beyond)
      = cstring (sys_read st0.buffer BUFFER_SIZE c.read_result) :=
    fun beyond => takeWhile_append_stop _ beyond hmem
  obtain ⟨tail, ht, hret1, hsig⟩ := serve_at fd LoopState.init st0 pre c post hst0 hc
  refine ⟨st0.addrlen, sys_read st0.buffer BUFFER_SIZE c.read_result, tail,
    ?_, fun r hw => (hret1 r hw).1, fun hw => (hsig hw).1, hlen, hget, ?_, happ⟩
  · rw [ht]
    simp only [request_dump, happ]
    rfl
  · have := takeWhile_length_lt _ hmem
    unfold cstring
    omega

/-- Witness of C10: a one-byte request logged after a 1023-byte request. -/
theorem C10_buffer_terminated_witness :
    ∃ addrlen buffer tail,
      (serve 3 LoopState.init ([conn 4 (List.replicate 1023 65)] ++ conn 5 [66] :: [])).trace =
        (serve 3 LoopState.init [conn 4 (List.replicate 1023 65)]).trace ++
          [Event.accept 3 addrlen (conn 5 [66]).accept_ret,
           Event.read (conn 5 [66]).accept_ret 1024 ((conn 5 [66]).read_result.ret 1024),
           Event.printf (bytes "Request received:\n---\n" ++ cstring buffer ++ bytes "\n---\n"),
           Event.write (conn 5 [66]).accept_ret response_literal 75
             (conn 5 [66]).write_result] ++ tail ∧
      (∀ r, (conn 5 [66]).write_result = WriteResult.returned r →
        tail = Event.close (conn 5 [66]).accept_ret (conn 5 [66]).close_ret ::
          (serve 3 { buffer := buffer, addrlen := (conn 5 [66]).accept_addrlen } []).trace) ∧
      ((conn 5 [66]).write_result = WriteResult.sigpipe → tail = []) ∧
      buffer.length = 1024 ∧
      buffer[1023]? = some 0 ∧
      (cstring buffer).length ≤ 1023 ∧
      ∀ beyond, cstring (buffer ++ beyond) = cstring buffer :=
  C10_buffer_terminated 3 [conn 4 (List.replicate 1023 65)] (conn 5 [66]) [] (by decide)
    (by decide)
    (by
      intro p hp hacc
      simp only [List.singleton_append, List.mem_cons, List.mem_singleton, List.not_mem_nil,
        or_false] at hp
      rcases hp with rfl | rfl
      · show (((List.replicate 1023 65).take BUFFER_SIZE).length : Int) ≤ 1023
        rw [List.length_take, List.length_replicate]
        decide
      · decide)

end Daemon
